import Mathlib

/-!
Neo2-LLHK: layer resolution and key dispatch

A shallow embedding of `src/main.cpp`.

* Machine integers (`DWORD`, `WORD`, `wchar_t`, `uint16_t`) are natural numbers;
  the narrowing casts written in the source are explicit `%`.
* `SendInput` is the only effect of the key injector.  The injector is modelled
  by the log of the `INPUT` records handed to `SendInput`, oldest first.  The
  diagnostic written to `std::cerr` when `SendInput` reports a short count does
  not influence the dispatch and is not modelled.
* Indexing a `std::array` is modelled by `List` lookup returning an `Option`;
  `none` stands for an access outside the array.  Every function that indexes
  a table therefore returns an `Option`.
* The process-wide layer singletons are the constructors of `Layer`; the
  `Layer *layer` member of `Neo2Hook` is a value of that type.
-/

namespace Neo2

/-! ## Constants of the Windows SDK (`winuser.h`, reached through `<windows.h>`) -/

def VK_BACK : Nat := 0x08
def VK_TAB : Nat := 0x09
def VK_RETURN : Nat := 0x0D
def VK_SHIFT : Nat := 0x10
def VK_CAPITAL : Nat := 0x14
def VK_ESCAPE : Nat := 0x1B
def VK_END : Nat := 0x23
def VK_HOME : Nat := 0x24
def VK_LEFT : Nat := 0x25
def VK_UP : Nat := 0x26
def VK_RIGHT : Nat := 0x27
def VK_DOWN : Nat := 0x28
def VK_DELETE : Nat := 0x2E
def VK_NUMPAD0 : Nat := 0x60
def VK_NUMPAD1 : Nat := 0x61
def VK_NUMPAD2 : Nat := 0x62
def VK_NUMPAD3 : Nat := 0x63
def VK_NUMPAD4 : Nat := 0x64
def VK_NUMPAD5 : Nat := 0x65
def VK_NUMPAD6 : Nat := 0x66
def VK_NUMPAD7 : Nat := 0x67
def VK_NUMPAD8 : Nat := 0x68
def VK_NUMPAD9 : Nat := 0x69
def VK_LSHIFT : Nat := 0xA0
def VK_RSHIFT : Nat := 0xA1
def VK_LCONTROL : Nat := 0xA2
def VK_RMENU : Nat := 0xA5
def VK_OEM_2 : Nat := 0xBF
def VK_OEM_102 : Nat := 0xE2

def LLKHF_EXTENDED : Nat := 0x01
def LLKHF_INJECTED : Nat := 0x10

def INPUT_KEYBOARD : Nat := 1
def KEYEVENTF_KEYUP : Nat := 0x0002
def KEYEVENTF_UNICODE : Nat := 0x0004

/-- The hook record `KBDLLHOOKSTRUCT`; every field is a `DWORD`. -/
structure KBDLLHOOKSTRUCT where
  vkCode : Nat
  scanCode : Nat
  flags : Nat
  time : Nat
  dwExtraInfo : Nat
  deriving DecidableEq, Repr

/-- The record `INPUT` with its `ki` member flattened; fields the source does
not name are zero-initialised and left out. -/
structure INPUT where
  type : Nat
  wVk : Nat
  wScan : Nat
  dwFlags : Nat
  deriving DecidableEq, Repr

/-! ## `main.cpp` lines 23-30 -/

def is_ascii_alnum (ch : Nat) : Bool :=
  (ch ≥ 0x41 && ch ≤ 0x5A) || (ch ≥ 0x61 && ch ≤ 0x7A) || (ch ≥ 0x30 && ch ≤ 0x39)

inductive KeyPress where
  | UP
  | DOWN
  deriving DecidableEq, Repr

/-! ## `KeyPressInjector`, lines 32-79 -/

/-- The injector has no data members; `sent` logs the records given to
`SendInput`, in call order. -/
structure KeyPressInjector where
  sent : List INPUT
  deriving DecidableEq, Repr

def KeyPressInjector.inject_unicode_key (self : KeyPressInjector) (key : Nat)
    (key_press : KeyPress) : KeyPressInjector :=
  let input : INPUT :=
    { type := INPUT_KEYBOARD, wVk := 0, wScan := key, dwFlags := KEYEVENTF_UNICODE }
  let input : INPUT :=
    if key_press = KeyPress.UP then { input with dwFlags := input.dwFlags ||| KEYEVENTF_KEYUP }
    else input
  { sent := self.sent ++ [input] }

def KeyPressInjector.inject_virtual_key (self : KeyPressInjector) (virtual_key : Nat)
    (key_press : KeyPress) : KeyPressInjector :=
  let input : INPUT :=
    { type := INPUT_KEYBOARD, wVk := virtual_key % 2 ^ 16, wScan := virtual_key, dwFlags := 0 }
  let input : INPUT :=
    if key_press = KeyPress.UP then { input with dwFlags := input.dwFlags ||| KEYEVENTF_KEYUP }
    else input
  { sent := self.sent ++ [input] }

/-- The argument of `inject_virtual_key` is a `uint16_t`: the `unsigned`
value computed here is narrowed at the call. -/
def KeyPressInjector.inject_key (self : KeyPressInjector) (key : Nat)
    (key_press : KeyPress) : KeyPressInjector :=
  if is_ascii_alnum key then
    let virtual_key : Nat :=
      if key ≤ 0x39 then key % 2 ^ 8 else (key % 2 ^ 8) &&& (2 ^ 32 - 1 - 0x20)
    self.inject_virtual_key (virtual_key % 2 ^ 16) key_press
  else
    self.inject_unicode_key key key_press

/-! ## Key predicates and result types, lines 82-112 -/

def is_shift_key (key_press : KBDLLHOOKSTRUCT) : Bool :=
  key_press.vkCode == VK_SHIFT || key_press.vkCode == VK_LSHIFT || key_press.vkCode == VK_RSHIFT

def is_mod3_key (key_press : KBDLLHOOKSTRUCT) : Bool :=
  key_press.vkCode == VK_CAPITAL || key_press.vkCode == VK_OEM_2

def is_mod4_key (key_press : KBDLLHOOKSTRUCT) : Bool :=
  key_press.vkCode == VK_RMENU || key_press.vkCode == VK_OEM_102

inductive KeyAction where
  | SUPPRESS
  | PASS_THROUGH
  deriving DecidableEq, Repr

structure Neo2State where
  shift_pressed : Bool
  mod3_pressed : Bool
  mod4_pressed : Bool
  deriving DecidableEq, Repr

/-! ## `StaticTranslationTable<N>`, lines 131-167 -/

/-- A layer built on a scan-code table.  `N` is the template argument,
`translation_table` the `std::array<wchar_t, N>` member and `do_handle_key`
the pure virtual fallback supplied by the derived class. -/
structure StaticTranslationTable where
  N : Nat
  translation_table : List Nat
  do_handle_key : KeyPressInjector → KBDLLHOOKSTRUCT → KeyPress → KeyAction × KeyPressInjector

def StaticTranslationTable.translation_map_size (self : StaticTranslationTable) : Nat :=
  self.N

def StaticTranslationTable.translate (self : StaticTranslationTable) (index : Nat) :
    Option Nat :=
  self.translation_table[index]?

def StaticTranslationTable.handle_key (self : StaticTranslationTable)
    (key_press_injector : KeyPressInjector) (key_press : KBDLLHOOKSTRUCT) (type : KeyPress) :
    Option (KeyAction × KeyPressInjector) :=
  if key_press.flags &&& LLKHF_EXTENDED = 0
      ∧ key_press.scanCode > 0 ∧ key_press.scanCode < self.translation_map_size then
    match self.translate key_press.scanCode with
    | none => none
    | some translated =>
      if translated ≠ 0 then
        some (KeyAction.SUPPRESS, key_press_injector.inject_key translated type)
      else
        some (self.do_handle_key key_press_injector key_press type)
  else
    some (self.do_handle_key key_press_injector key_press type)

/-! ## The layers, lines 169-258 -/

/-- Row 1: NUL NUL 1 2 3 4 5 6 7 8 9 0 hyphen grave NUL NUL;
row 2: x v l c w k h g f q ß ´ NUL NUL u i;
row 3: a e o s n r t d y NUL NUL NUL ü ö ä p;
row 4: z b m comma period j and ten NUL. -/
def Layer1 : StaticTranslationTable where
  N := 64
  translation_table :=
    [0x0, 0x0, 0x31, 0x32, 0x33, 0x34, 0x35, 0x36, 0x37, 0x38, 0x39, 0x30, 0x2D, 0x60, 0x0, 0x0,
     0x78, 0x76, 0x6C, 0x63, 0x77, 0x6B, 0x68, 0x67, 0x66, 0x71, 0xDF, 0xB4, 0x0, 0x0, 0x75, 0x69,
     0x61, 0x65, 0x6F, 0x73, 0x6E, 0x72, 0x74, 0x64, 0x79, 0x0, 0x0, 0x0, 0xFC, 0xF6, 0xE4, 0x70,
     0x7A, 0x62, 0x6D, 0x2C, 0x2E, 0x6A, 0x0, 0x0, 0x0, 0x0, 0x0, 0x0, 0x0, 0x0, 0x0, 0x0]
  do_handle_key := fun key_press_injector _ _ => (KeyAction.PASS_THROUGH, key_press_injector)

/-- Row 1: NUL NUL ° § ℓ » « $ € „ “ ” — NUL NUL NUL;
row 2: X V L C W K H G F Q ẞ ´ NUL NUL U I;
row 3: A E O S N R T D Y NUL NUL NUL Ü Ö Ä P;
row 4: Z B M NUL • J and ten NUL. -/
def Layer2 : StaticTranslationTable where
  N := 64
  translation_table :=
    [0x0, 0x0, 0xB0, 0xA7, 0x2113, 0xBB, 0xAB, 0x24, 0x20AC, 0x201E, 0x201C, 0x201D, 0x2014,
       0x0, 0x0, 0x0,
     0x58, 0x56, 0x4C, 0x43, 0x57, 0x4B, 0x48, 0x47, 0x46, 0x51, 0x1E9E, 0xB4, 0x0, 0x0, 0x55, 0x49,
     0x41, 0x45, 0x4F, 0x53, 0x4E, 0x52, 0x54, 0x44, 0x59, 0x0, 0x0, 0x0, 0xDC, 0xD6, 0xC4, 0x50,
     0x5A, 0x42, 0x4D, 0x0, 0x2022, 0x4A, 0x0, 0x0, 0x0, 0x0, 0x0, 0x0, 0x0, 0x0, 0x0, 0x0]
  do_handle_key := fun key_press_injector _ _ => (KeyAction.PASS_THROUGH, key_press_injector)

/-- Row 1: NUL NUL ¹ ² ³ › ‹ ¢ ¥ ‚ ‘ ’ ‐ NUL NUL NUL;
row 2: … _ [ ] ^ ! < > = & ẞ ´ NUL NUL backslash slash;
row 3: the two braces, * ? ( ) hyphen : @ NUL NUL NUL # $ | ~;
row 4: grave + % double-quote single-quote semicolon and ten NUL. -/
def Layer3 : StaticTranslationTable where
  N := 64
  translation_table :=
    [0x0, 0x0, 0xB9, 0xB2, 0xB3, 0x203A, 0x2039, 0xA2, 0xA5, 0x201A, 0x2018, 0x2019, 0x2010,
       0x0, 0x0, 0x0,
     0x2026, 0x5F, 0x5B, 0x5D, 0x5E, 0x21, 0x3C, 0x3E, 0x3D, 0x26, 0x1E9E, 0xB4, 0x0, 0x0, 0x5C, 0x2F,
     0x7B, 0x7D, 0x2A, 0x3F, 0x28, 0x29, 0x2D, 0x3A, 0x40, 0x0, 0x0, 0x0, 0x23, 0x24, 0x7C, 0x7E,
     0x60, 0x2B, 0x25, 0x22, 0x27, 0x3B, 0x0, 0x0, 0x0, 0x0, 0x0, 0x0, 0x0, 0x0, 0x0, 0x0]
  do_handle_key := fun key_press_injector _ _ => (KeyAction.PASS_THROUGH, key_press_injector)

/-- The member `translation_table` of `Layer4`, a `std::array<uint16_t, 64>`. -/
def Layer4.translation_table : List Nat :=
  [0, 0, 0, 0, 0, 0, 0, 0,
   0, 0, 0, 0, 0, 0, 0, 0,
   0, VK_BACK, VK_UP, VK_DELETE, 0, 0, VK_NUMPAD7, VK_NUMPAD8,
   VK_NUMPAD9, 0, 0, 0, 0, 0, VK_HOME, VK_LEFT,
   VK_DOWN, VK_RIGHT, VK_END, 0, VK_NUMPAD4, VK_NUMPAD5, VK_NUMPAD6, 0,
   0, 0, 0, 0, VK_ESCAPE, VK_TAB, 0, VK_RETURN,
   0, 0, VK_NUMPAD1, VK_NUMPAD2, VK_NUMPAD3, 0, 0, 0,
   0, VK_NUMPAD0, 0, 0, 0, 0, 0, 0]

def Layer4.handle_key (key_press_injector : KeyPressInjector) (key_press : KBDLLHOOKSTRUCT)
    (type : KeyPress) : Option (KeyAction × KeyPressInjector) :=
  if key_press.scanCode ≥ 0 ∧ key_press.scanCode < Layer4.translation_table.length then
    match Layer4.translation_table[key_press.scanCode]? with
    | none => none
    | some virtual_key =>
      if virtual_key ≠ 0 then
        some (KeyAction.SUPPRESS, key_press_injector.inject_virtual_key virtual_key type)
      else
        some (KeyAction.PASS_THROUGH, key_press_injector)
  else
    some (KeyAction.PASS_THROUGH, key_press_injector)

def ByPassLayer.handle_key (key_press_injector : KeyPressInjector) (_key_press : KBDLLHOOKSTRUCT)
    (_type : KeyPress) : Option (KeyAction × KeyPressInjector) :=
  some (KeyAction.PASS_THROUGH, key_press_injector)

/-- The five singletons a `Layer *` can point to. -/
inductive Layer where
  | Layer1
  | Layer2
  | Layer3
  | Layer4
  | ByPassLayer
  deriving DecidableEq, Repr

/-- The virtual call `layer->handle_key(...)`. -/
def Layer.handle_key (self : Layer) (key_press_injector : KeyPressInjector)
    (key_press : KBDLLHOOKSTRUCT) (type : KeyPress) : Option (KeyAction × KeyPressInjector) :=
  match self with
  | Layer.Layer1 => Neo2.Layer1.handle_key key_press_injector key_press type
  | Layer.Layer2 => Neo2.Layer2.handle_key key_press_injector key_press type
  | Layer.Layer3 => Neo2.Layer3.handle_key key_press_injector key_press type
  | Layer.Layer4 => Neo2.Layer4.handle_key key_press_injector key_press type
  | Layer.ByPassLayer => Neo2.ByPassLayer.handle_key key_press_injector key_press type

/-! ## `Neo2Hook`, lines 260-352 -/

structure Neo2Hook where
  key_press_injector : KeyPressInjector
  neo2_state : Neo2State
  layer : Layer
  bypass_requested : Bool
  deriving DecidableEq, Repr

/-- The constructor `Neo2Hook::Neo2Hook()`. -/
def Neo2Hook.new : Neo2Hook where
  key_press_injector := { sent := [] }
  neo2_state := { shift_pressed := false, mod3_pressed := false, mod4_pressed := false }
  layer := Layer.Layer1
  bypass_requested := false

/-- The reference parameter `action` is returned as the second component. -/
def Neo2Hook.handle_mod (self : Neo2Hook) (key_press : KBDLLHOOKSTRUCT) (type : KeyPress)
    (action : KeyAction) : Bool × KeyAction × Neo2Hook :=
  let pressed : Bool := decide (type = KeyPress.DOWN)
  if pressed && key_press.vkCode == VK_END then
    (true, KeyAction.PASS_THROUGH, { self with bypass_requested := !self.bypass_requested })
  else if is_shift_key key_press then
    (true, KeyAction.PASS_THROUGH,
      { self with neo2_state := { self.neo2_state with shift_pressed := pressed } })
  else if is_mod3_key key_press then
    (true, KeyAction.SUPPRESS,
      { self with neo2_state := { self.neo2_state with mod3_pressed := pressed } })
  else if is_mod4_key key_press then
    let self : Neo2Hook :=
      { self with neo2_state := { self.neo2_state with mod4_pressed := pressed } }
    if type = KeyPress.DOWN ∧ key_press.vkCode = VK_RMENU then
      (true, KeyAction.SUPPRESS,
        { self with
          key_press_injector :=
            self.key_press_injector.inject_virtual_key VK_LCONTROL KeyPress.UP })
    else
      (true, KeyAction.SUPPRESS, self)
  else
    (false, action, self)

def Neo2Hook.determine_level (self : Neo2Hook) : Neo2Hook :=
  if self.bypass_requested then { self with layer := Layer.ByPassLayer }
  else if self.neo2_state.mod4_pressed then { self with layer := Layer.Layer4 }
  else if self.neo2_state.mod3_pressed then { self with layer := Layer.Layer3 }
  else if self.neo2_state.shift_pressed then { self with layer := Layer.Layer2 }
  else { self with layer := Layer.Layer1 }

def Neo2Hook.do_handle_key (self : Neo2Hook) (key_press : KBDLLHOOKSTRUCT) (type : KeyPress) :
    Option (KeyAction × Neo2Hook) :=
  if key_press.flags &&& LLKHF_INJECTED ≠ 0 then
    some (KeyAction.PASS_THROUGH, self)
  else
    let action := KeyAction.PASS_THROUGH
    match self.handle_mod key_press type action with
    | (true, action, self) => some (action, self.determine_level)
    | (false, _, self) =>
      if self.neo2_state.mod4_pressed && key_press.vkCode == VK_LCONTROL then
        some (KeyAction.SUPPRESS, self)
      else
        match self.layer.handle_key self.key_press_injector key_press type with
        | none => none
        | some (action, key_press_injector) =>
          some (action, { self with key_press_injector := key_press_injector })


/-! ## Vocabulary for the statements -/

/-- The three scan-code table layers. -/
def tableLayers : List StaticTranslationTable := [Layer1, Layer2, Layer3]

/-- The hook procedure called once for each event of a sequence, in order;
the decisions are collected oldest first. -/
def Neo2Hook.run (self : Neo2Hook) :
    List (KBDLLHOOKSTRUCT × KeyPress) → Option (List KeyAction × Neo2Hook)
  | [] => some ([], self)
  | (key_press, type) :: rest =>
    match self.do_handle_key key_press type with
    | none => none
    | some (action, next) =>
      match next.run rest with
      | none => none
      | some (actions, final) => some (action :: actions, final)

/-- The events `handle_mod` claims: a Down of the toggle key, and any event of
a Shift, mod3 or mod4 key. -/
def claimed (key_press : KBDLLHOOKSTRUCT) (type : KeyPress) : Bool :=
  (decide (type = KeyPress.DOWN) && key_press.vkCode == VK_END)
    || is_shift_key key_press || is_mod3_key key_press || is_mod4_key key_press

/-! ## Injected events -/

/-- C1: an event whose injected flag is set is answered with `PASS_THROUGH`
whatever its virtual key, scan code, other flags and direction are, and the
whole hook object (the injector log, the three modifier flags,
`bypass_requested` and the layer pointer) is returned as it was. -/
theorem injected_event_passes_through (h : Neo2Hook) (e : KBDLLHOOKSTRUCT) (t : KeyPress)
    (hinj : e.flags &&& LLKHF_INJECTED ≠ 0) :
    h.do_handle_key e t = some (KeyAction.PASS_THROUGH, h) := by
  unfold Neo2Hook.do_handle_key
  rw [if_pos hinj]

theorem injected_event_passes_through_witness :
    LLKHF_INJECTED &&& LLKHF_INJECTED ≠ 0
    ∧ Neo2Hook.new.do_handle_key
        { vkCode := VK_CAPITAL, scanCode := 0x3A, flags := LLKHF_INJECTED, time := 0,
          dwExtraInfo := 0 } KeyPress.DOWN
      = some (KeyAction.PASS_THROUGH, Neo2Hook.new) :=
  ⟨by decide, injected_event_passes_through Neo2Hook.new _ KeyPress.DOWN (by decide)⟩

/-! ## Layer selection -/

/-- C2: `determine_level` changes nothing but the layer pointer, and the layer
it stores is fixed by the priority bypass, then mod4, then mod3, then shift,
then base: each layer is selected exactly when its own flag is set and every
flag of higher priority is clear.  With mod4 and mod3 both held and no bypass
the result is `Layer4`. -/
theorem determine_level_priority (h : Neo2Hook) :
    (h.determine_level.layer = Layer.ByPassLayer ↔ h.bypass_requested = true)
    ∧ (h.determine_level.layer = Layer.Layer4 ↔
        h.bypass_requested = false ∧ h.neo2_state.mod4_pressed = true)
    ∧ (h.determine_level.layer = Layer.Layer3 ↔
        h.bypass_requested = false ∧ h.neo2_state.mod4_pressed = false
          ∧ h.neo2_state.mod3_pressed = true)
    ∧ (h.determine_level.layer = Layer.Layer2 ↔
        h.bypass_requested = false ∧ h.neo2_state.mod4_pressed = false
          ∧ h.neo2_state.mod3_pressed = false ∧ h.neo2_state.shift_pressed = true)
    ∧ (h.determine_level.layer = Layer.Layer1 ↔
        h.bypass_requested = false ∧ h.neo2_state.mod4_pressed = false
          ∧ h.neo2_state.mod3_pressed = false ∧ h.neo2_state.shift_pressed = false)
    ∧ h.determine_level = { h with layer := h.determine_level.layer } := by
  obtain ⟨inj, ⟨s, m3, m4⟩, l, b⟩ := h
  cases b <;> cases m4 <;> cases m3 <;> cases s <;> simp [Neo2Hook.determine_level]

/-! ## Routing of characters in the injector -/

theorem inject_virtual_key_sent (inj : KeyPressInjector) (vk : Nat) (d : KeyPress) :
    inj.inject_virtual_key vk d
      = { sent := inj.sent ++
            [{ type := INPUT_KEYBOARD, wVk := vk % 2 ^ 16, wScan := vk,
               dwFlags := if d = KeyPress.UP then KEYEVENTF_KEYUP else 0 }] } := by
  cases d <;> simp [KeyPressInjector.inject_virtual_key, KEYEVENTF_KEYUP]

theorem inject_unicode_key_sent (inj : KeyPressInjector) (c : Nat) (d : KeyPress) :
    inj.inject_unicode_key c d
      = { sent := inj.sent ++
            [{ type := INPUT_KEYBOARD, wVk := 0, wScan := c,
               dwFlags := if d = KeyPress.UP then KEYEVENTF_UNICODE ||| KEYEVENTF_KEYUP
                          else KEYEVENTF_UNICODE }] } := by
  cases d <;> simp [KeyPressInjector.inject_unicode_key]

theorem inject_paths_differ (inj : KeyPressInjector) (vk c : Nat) (d : KeyPress) :
    inj.inject_virtual_key vk d ≠ inj.inject_unicode_key c d := by
  rw [inject_virtual_key_sent, inject_unicode_key_sent]
  cases d <;> simp [KEYEVENTF_KEYUP, KEYEVENTF_UNICODE]

theorem is_ascii_alnum_iff (ch : Nat) :
    is_ascii_alnum ch = true ↔
      (0x41 ≤ ch ∧ ch ≤ 0x5A) ∨ (0x61 ≤ ch ∧ ch ≤ 0x7A) ∨ (0x30 ≤ ch ∧ ch ≤ 0x39) := by
  simp [is_ascii_alnum, or_assoc]

theorem inject_key_digit_or_upper (inj : KeyPressInjector) (ch : Nat) (d : KeyPress)
    (h : (0x30 ≤ ch ∧ ch ≤ 0x39) ∨ (0x41 ≤ ch ∧ ch ≤ 0x5A)) :
    inj.inject_key ch d = inj.inject_virtual_key ch d := by
  rcases h with ⟨h1, h2⟩ | ⟨h1, h2⟩ <;> interval_cases ch <;> rfl

theorem inject_key_lower (inj : KeyPressInjector) (ch : Nat) (d : KeyPress)
    (h : 0x61 ≤ ch ∧ ch ≤ 0x7A) :
    inj.inject_key ch d = inj.inject_virtual_key (ch - 32) d := by
  obtain ⟨h1, h2⟩ := h
  interval_cases ch <;> rfl

theorem inject_key_other (inj : KeyPressInjector) (ch : Nat) (d : KeyPress)
    (h : is_ascii_alnum ch = false) :
    inj.inject_key ch d = inj.inject_unicode_key ch d := by
  simp [KeyPressInjector.inject_key, h]

/-- C3: `inject_key ch d` takes the virtual-key path exactly for the
characters `A`..`Z`, `a`..`z` and `0`..`9`.  On that path the virtual-key id is
`ch` for digits and uppercase letters and `ch - 32` for lowercase letters; for
every other character the unicode path is taken with `ch` unchanged.  Either
path appends exactly one record to what was sent, and the record has the
key-up flag exactly when `d` is `UP`. -/
theorem inject_key_routing (inj : KeyPressInjector) (ch : Nat) (d : KeyPress) :
    ((∃ vk, inj.inject_key ch d = inj.inject_virtual_key vk d) ↔
        (0x41 ≤ ch ∧ ch ≤ 0x5A) ∨ (0x61 ≤ ch ∧ ch ≤ 0x7A) ∨ (0x30 ≤ ch ∧ ch ≤ 0x39))
    ∧ ((0x30 ≤ ch ∧ ch ≤ 0x39) ∨ (0x41 ≤ ch ∧ ch ≤ 0x5A) →
        inj.inject_key ch d = inj.inject_virtual_key ch d)
    ∧ (0x61 ≤ ch ∧ ch ≤ 0x7A → inj.inject_key ch d = inj.inject_virtual_key (ch - 32) d)
    ∧ (¬ ((0x41 ≤ ch ∧ ch ≤ 0x5A) ∨ (0x61 ≤ ch ∧ ch ≤ 0x7A) ∨ (0x30 ≤ ch ∧ ch ≤ 0x39)) →
        inj.inject_key ch d = inj.inject_unicode_key ch d)
    ∧ (∀ vk, vk < 2 ^ 16 → inj.inject_virtual_key vk d
        = { sent := inj.sent ++
              [{ type := INPUT_KEYBOARD, wVk := vk, wScan := vk,
                 dwFlags := if d = KeyPress.UP then KEYEVENTF_KEYUP else 0 }] })
    ∧ (∀ c, inj.inject_unicode_key c d
        = { sent := inj.sent ++
              [{ type := INPUT_KEYBOARD, wVk := 0, wScan := c,
                 dwFlags := if d = KeyPress.UP then KEYEVENTF_UNICODE ||| KEYEVENTF_KEYUP
                            else KEYEVENTF_UNICODE }] }) := by
  refine ⟨⟨?_, ?_⟩, inject_key_digit_or_upper inj ch d, inject_key_lower inj ch d, ?_, ?_,
    fun c => inject_unicode_key_sent inj c d⟩
  · rintro ⟨vk, hvk⟩
    by_contra hne
    have hf : is_ascii_alnum ch = false := by
      rw [← Bool.not_eq_true, is_ascii_alnum_iff]; exact hne
    rw [inject_key_other inj ch d hf] at hvk
    exact inject_paths_differ inj vk ch d hvk.symm
  · rintro (h | h | h)
    · exact ⟨ch, inject_key_digit_or_upper inj ch d (Or.inr h)⟩
    · exact ⟨ch - 32, inject_key_lower inj ch d h⟩
    · exact ⟨ch, inject_key_digit_or_upper inj ch d (Or.inl h)⟩
  · intro hne
    apply inject_key_other
    rw [← Bool.not_eq_true, is_ascii_alnum_iff]; exact hne
  · intro vk hvk
    rw [inject_virtual_key_sent, Nat.mod_eq_of_lt hvk]

/-- What `inject_key` sends, read off the record: one record, whose key-up
flag gives the direction; a unicode record carrying `ch` when `ch` is not an
ASCII letter or digit, and otherwise a virtual-key record for `ch` or, for a
lowercase letter, for `ch - 32`. -/
theorem inject_key_one_event (inj : KeyPressInjector) (ch : Nat) (d : KeyPress) :
    ∃ ev : INPUT, inj.inject_key ch d = { sent := inj.sent ++ [ev] }
      ∧ ev.type = INPUT_KEYBOARD
      ∧ (ev.dwFlags &&& KEYEVENTF_KEYUP ≠ 0 ↔ d = KeyPress.UP)
      ∧ (is_ascii_alnum ch = false →
          ev.dwFlags &&& KEYEVENTF_UNICODE ≠ 0 ∧ ev.wVk = 0 ∧ ev.wScan = ch)
      ∧ (is_ascii_alnum ch = true →
          ev.dwFlags &&& KEYEVENTF_UNICODE = 0 ∧ ev.wVk = ev.wScan
            ∧ ev.wVk = if 0x61 ≤ ch then ch - 32 else ch) := by
  cases halnum : is_ascii_alnum ch
  · refine ⟨_, (inject_key_other inj ch d halnum).trans (inject_unicode_key_sent inj ch d),
      rfl, ?_, ?_, ?_⟩
    · cases d <;> simp [KEYEVENTF_KEYUP, KEYEVENTF_UNICODE]
      decide
    · intro _
      cases d <;> simp [KEYEVENTF_KEYUP, KEYEVENTF_UNICODE]
    · intro h; cases h
  · rw [is_ascii_alnum_iff] at halnum
    have hlt : (if 0x61 ≤ ch then ch - 32 else ch) < 2 ^ 16 := by
      split <;> omega
    have hkey : inj.inject_key ch d
        = inj.inject_virtual_key (if 0x61 ≤ ch then ch - 32 else ch) d := by
      rcases halnum with h | h | h
      · rw [if_neg (by omega)]; exact inject_key_digit_or_upper inj ch d (Or.inr h)
      · rw [if_pos (by omega)]; exact inject_key_lower inj ch d h
      · rw [if_neg (by omega)]; exact inject_key_digit_or_upper inj ch d (Or.inl h)
    refine ⟨_, hkey.trans (inject_virtual_key_sent inj _ d), rfl, ?_, ?_, ?_⟩
    · cases d <;> simp [KEYEVENTF_KEYUP]
    · intro h; cases h
    · intro _
      refine ⟨?_, Nat.mod_eq_of_lt hlt, Nat.mod_eq_of_lt hlt⟩
      cases d <;> simp [KEYEVENTF_KEYUP, KEYEVENTF_UNICODE]
      decide

/-! ## Scan-code table layers -/

theorem table_handle_key_mapped (T : StaticTranslationTable)
    (inj : KeyPressInjector) (e : KBDLLHOOKSTRUCT) (d : KeyPress) (ch : Nat)
    (hext : e.flags &&& LLKHF_EXTENDED = 0) (hpos : 0 < e.scanCode) (hlt : e.scanCode < T.N)
    (hch : T.translation_table[e.scanCode]? = some ch) (hne : ch ≠ 0) :
    T.handle_key inj e d = some (KeyAction.SUPPRESS, inj.inject_key ch d) := by
  unfold StaticTranslationTable.handle_key
  rw [if_pos ⟨hext, hpos, hlt⟩]
  simp only [StaticTranslationTable.translate, hch]
  rw [if_pos hne]

theorem table_handle_key_unmapped (T : StaticTranslationTable)
    (inj : KeyPressInjector) (e : KBDLLHOOKSTRUCT) (d : KeyPress)
    (h : e.flags &&& LLKHF_EXTENDED ≠ 0 ∨ e.scanCode = 0 ∨ T.N ≤ e.scanCode
          ∨ T.translation_table[e.scanCode]? = some 0) :
    T.handle_key inj e d = some (T.do_handle_key inj e d) := by
  unfold StaticTranslationTable.handle_key
  split
  · rename_i hc
    rcases h with h | h | h | h
    · exact absurd hc.1 h
    · omega
    · have := hc.2.2; simp only [StaticTranslationTable.translation_map_size] at this; omega
    · simp [StaticTranslationTable.translate, h]
  · rfl

theorem tableLayers_entry (T : StaticTranslationTable) (hT : T ∈ tableLayers) :
    T.N = 64 ∧ T.translation_table.length = 64 ∧ T.translation_table[0]? = some 0
      ∧ ∀ inj e d, T.do_handle_key inj e d = (KeyAction.PASS_THROUGH, inj) := by
  simp only [tableLayers, List.mem_cons, List.mem_singleton, List.not_mem_nil,
    or_false] at hT
  rcases hT with rfl | rfl | rfl <;> exact ⟨rfl, rfl, rfl, fun _ _ _ => rfl⟩

theorem tableLayers_mapped_bounds (T : StaticTranslationTable) (hT : T ∈ tableLayers)
    (s ch : Nat) (hch : T.translation_table[s]? = some ch) (hne : ch ≠ 0) :
    0 < s ∧ s < T.N := by
  obtain ⟨hN, hlen, h0, _⟩ := tableLayers_entry T hT
  have hs : s < T.translation_table.length := by
    by_contra hge
    rw [List.getElem?_eq_none (Nat.le_of_not_lt hge)] at hch
    cases hch
  refine ⟨?_, by omega⟩
  rcases Nat.eq_zero_or_pos s with rfl | hpos
  · rw [h0] at hch; exact absurd (Option.some.inj hch).symm hne
  · exact hpos

/-- C4, as stated, fails: the Layer1 entry at scan code 2 is the digit 1, yet
a Down event at scan code 2 that has the extended flag set injects nothing and
is answered with `PASS_THROUGH`.  So it is not true that every event at a
mapped scan code is suppressed with one injected record. -/
theorem mapped_entry_extended_event_refutes :
    Layer1.translation_table[2]? = some 0x31
    ∧ Layer1.handle_key { sent := [] }
        { vkCode := 0x31, scanCode := 2, flags := LLKHF_EXTENDED, time := 0, dwExtraInfo := 0 }
        KeyPress.DOWN
      = some (KeyAction.PASS_THROUGH, { sent := [] })
    ∧ ¬ (∀ T ∈ tableLayers, ∀ (s ch : Nat), T.translation_table[s]? = some ch → ch ≠ 0 →
          ∀ (inj : KeyPressInjector) (e : KBDLLHOOKSTRUCT) (d : KeyPress), e.scanCode = s →
            ∃ ev, T.handle_key inj e d
              = some (KeyAction.SUPPRESS, { sent := inj.sent ++ [ev] })) := by
  have hrun : Layer1.handle_key { sent := [] }
      { vkCode := 0x31, scanCode := 2, flags := LLKHF_EXTENDED, time := 0, dwExtraInfo := 0 }
      KeyPress.DOWN = some (KeyAction.PASS_THROUGH, { sent := [] }) := by decide
  refine ⟨rfl, hrun, fun hall => ?_⟩
  obtain ⟨ev, hev⟩ := hall Layer1 (by simp [tableLayers]) 2 0x31 rfl (by decide) { sent := [] }
    { vkCode := 0x31, scanCode := 2, flags := LLKHF_EXTENDED, time := 0, dwExtraInfo := 0 }
    KeyPress.DOWN rfl
  rw [hrun] at hev
  cases hev

/-- C4, amended: for each of Layer1, Layer2 and Layer3 and every scan code `s`
whose table entry `ch` is non-zero, an event at `s` that does not have the
extended flag set is answered with `SUPPRESS` and sends exactly one record,
the one `inject_key` builds for `ch` with the direction of the event (Down for
a Down event, Up for an Up event): a unicode record carrying `ch` when `ch` is
not an ASCII letter or digit, and otherwise the virtual-key record for `ch`,
or for `ch - 32` when `ch` is a lowercase letter. -/
theorem table_layer_mapped_key (T : StaticTranslationTable) (hT : T ∈ tableLayers)
    (s ch : Nat) (hch : T.translation_table[s]? = some ch) (hne : ch ≠ 0)
    (inj : KeyPressInjector) (e : KBDLLHOOKSTRUCT) (d : KeyPress) (hs : e.scanCode = s)
    (hext : e.flags &&& LLKHF_EXTENDED = 0) :
    ∃ ev : INPUT,
      T.handle_key inj e d = some (KeyAction.SUPPRESS, { sent := inj.sent ++ [ev] })
      ∧ inj.inject_key ch d = { sent := inj.sent ++ [ev] }
      ∧ ev.type = INPUT_KEYBOARD
      ∧ (ev.dwFlags &&& KEYEVENTF_KEYUP ≠ 0 ↔ d = KeyPress.UP)
      ∧ (is_ascii_alnum ch = false →
          ev.dwFlags &&& KEYEVENTF_UNICODE ≠ 0 ∧ ev.wVk = 0 ∧ ev.wScan = ch)
      ∧ (is_ascii_alnum ch = true →
          ev.dwFlags &&& KEYEVENTF_UNICODE = 0 ∧ ev.wVk = ev.wScan
            ∧ ev.wVk = if 0x61 ≤ ch then ch - 32 else ch) := by
  subst hs
  obtain ⟨hpos, hlt⟩ := tableLayers_mapped_bounds T hT e.scanCode ch hch hne
  obtain ⟨ev, hev, hrest⟩ := inject_key_one_event inj ch d
  refine ⟨ev, ?_, hev, hrest⟩
  rw [table_handle_key_mapped T inj e d ch hext hpos hlt hch hne, hev]

theorem table_layer_mapped_key_witness :
    Layer3 ∈ tableLayers ∧ Layer3.translation_table[17]? = some 0x5F
    ∧ ∃ ev : INPUT,
        Layer3.handle_key { sent := [] }
            { vkCode := 0x57, scanCode := 17, flags := 0, time := 0, dwExtraInfo := 0 }
            KeyPress.DOWN
          = some (KeyAction.SUPPRESS, { sent := [] ++ [ev] })
        ∧ ev.wScan = 0x5F ∧ ev.wVk = 0 :=
  ⟨by simp [tableLayers], rfl, by
    obtain ⟨ev, h1, _, _, _, h5, _⟩ :=
      table_layer_mapped_key Layer3 (by simp [tableLayers]) 17 0x5F rfl (by decide)
        { sent := [] }
        { vkCode := 0x57, scanCode := 17, flags := 0, time := 0, dwExtraInfo := 0 }
        KeyPress.DOWN rfl (by decide)
    exact ⟨ev, h1, (h5 (by decide)).2.2, (h5 (by decide)).2.1⟩⟩

/-! ## The dispatcher, case by case -/

theorem handle_mod_claims (h : Neo2Hook) (e : KBDLLHOOKSTRUCT) (t : KeyPress) (a : KeyAction) :
    (h.handle_mod e t a).1 = claimed e t := by
  simp only [Neo2Hook.handle_mod, claimed, Bool.and_eq_true, decide_eq_true_eq, beq_iff_eq]
  split_ifs <;> simp_all

theorem do_handle_key_toggle (h : Neo2Hook) (e : KBDLLHOOKSTRUCT)
    (hinj : e.flags &&& LLKHF_INJECTED = 0) (hvk : e.vkCode = VK_END) :
    h.do_handle_key e KeyPress.DOWN
      = some (KeyAction.PASS_THROUGH,
          Neo2Hook.determine_level { h with bypass_requested := !h.bypass_requested }) := by
  simp [Neo2Hook.do_handle_key, Neo2Hook.handle_mod, hinj, hvk]

theorem do_handle_key_shift (h : Neo2Hook) (e : KBDLLHOOKSTRUCT) (t : KeyPress)
    (hinj : e.flags &&& LLKHF_INJECTED = 0) (hvk : is_shift_key e = true) :
    h.do_handle_key e t
      = some (KeyAction.PASS_THROUGH,
          Neo2Hook.determine_level
            { h with neo2_state :=
                { h.neo2_state with shift_pressed := decide (t = KeyPress.DOWN) } }) := by
  have hne : e.vkCode ≠ VK_END := by
    intro hc
    simp [is_shift_key, hc, VK_END, VK_SHIFT, VK_LSHIFT, VK_RSHIFT] at hvk
  simp [Neo2Hook.do_handle_key, Neo2Hook.handle_mod, hinj, hvk, hne]

theorem do_handle_key_mod3 (h : Neo2Hook) (e : KBDLLHOOKSTRUCT) (t : KeyPress)
    (hinj : e.flags &&& LLKHF_INJECTED = 0) (hvk : is_mod3_key e = true) :
    h.do_handle_key e t
      = some (KeyAction.SUPPRESS,
          Neo2Hook.determine_level
            { h with neo2_state :=
                { h.neo2_state with mod3_pressed := decide (t = KeyPress.DOWN) } }) := by
  have hne : e.vkCode ≠ VK_END := by
    intro hc
    simp [is_mod3_key, hc, VK_END, VK_CAPITAL, VK_OEM_2] at hvk
  have hsh : is_shift_key e = false := by
    simp only [is_mod3_key, Bool.or_eq_true, beq_iff_eq] at hvk
    rcases hvk with hc | hc <;>
      simp [is_shift_key, hc, VK_CAPITAL, VK_OEM_2, VK_SHIFT, VK_LSHIFT, VK_RSHIFT]
  simp [Neo2Hook.do_handle_key, Neo2Hook.handle_mod, hinj, hvk, hne, hsh]

theorem do_handle_key_mod4 (h : Neo2Hook) (e : KBDLLHOOKSTRUCT) (t : KeyPress)
    (hinj : e.flags &&& LLKHF_INJECTED = 0) (hvk : is_mod4_key e = true) :
    h.do_handle_key e t
      = some (KeyAction.SUPPRESS,
          Neo2Hook.determine_level
            { h with
              neo2_state := { h.neo2_state with mod4_pressed := decide (t = KeyPress.DOWN) }
              key_press_injector :=
                if t = KeyPress.DOWN ∧ e.vkCode = VK_RMENU then
                  h.key_press_injector.inject_virtual_key VK_LCONTROL KeyPress.UP
                else h.key_press_injector }) := by
  have hne : e.vkCode ≠ VK_END := by
    intro hc
    simp [is_mod4_key, hc, VK_END, VK_RMENU, VK_OEM_102] at hvk
  have hsh : is_shift_key e = false := by
    simp only [is_mod4_key, Bool.or_eq_true, beq_iff_eq] at hvk
    rcases hvk with hc | hc <;>
      simp [is_shift_key, hc, VK_RMENU, VK_OEM_102, VK_SHIFT, VK_LSHIFT, VK_RSHIFT]
  have hm3 : is_mod3_key e = false := by
    simp only [is_mod4_key, Bool.or_eq_true, beq_iff_eq] at hvk
    rcases hvk with hc | hc <;>
      simp [is_mod3_key, hc, VK_RMENU, VK_OEM_102, VK_CAPITAL, VK_OEM_2]
  by_cases hc : t = KeyPress.DOWN ∧ e.vkCode = VK_RMENU
  · simp [Neo2Hook.do_handle_key, Neo2Hook.handle_mod, hinj, hvk, hsh, hm3, hc, VK_RMENU,
      VK_END]
  · simp [Neo2Hook.do_handle_key, Neo2Hook.handle_mod, hinj, hvk, hne, hsh, hm3, hc]

theorem handle_mod_unclaimed (h : Neo2Hook) (e : KBDLLHOOKSTRUCT) (t : KeyPress)
    (a : KeyAction) (hcl : claimed e t = false) : h.handle_mod e t a = (false, a, h) := by
  simp only [claimed, Bool.or_eq_false_iff, Bool.and_eq_false_iff, decide_eq_false_iff_not,
    beq_eq_false_iff_ne] at hcl
  obtain ⟨⟨⟨h1, h2⟩, h3⟩, h4⟩ := hcl
  have h1' : ¬ (t = KeyPress.DOWN ∧ e.vkCode = VK_END) := by tauto
  simp only [Neo2Hook.handle_mod, Bool.and_eq_true, decide_eq_true_eq, beq_iff_eq]
  rw [if_neg h1']
  simp [h2, h3, h4]

theorem do_handle_key_unclaimed (h : Neo2Hook) (e : KBDLLHOOKSTRUCT) (t : KeyPress)
    (hinj : e.flags &&& LLKHF_INJECTED = 0) (hcl : claimed e t = false) :
    h.do_handle_key e t
      = if h.neo2_state.mod4_pressed = true ∧ e.vkCode = VK_LCONTROL then
          some (KeyAction.SUPPRESS, h)
        else
          (h.layer.handle_key h.key_press_injector e t).map
            fun r => (r.1, { h with key_press_injector := r.2 }) := by
  unfold Neo2Hook.do_handle_key
  rw [if_neg (by simp [hinj])]
  simp only [handle_mod_unclaimed h e t _ hcl, Bool.and_eq_true, beq_iff_eq]
  split_ifs
  · rfl
  · cases h.layer.handle_key h.key_press_injector e t <;> rfl

theorem do_handle_key_injected (h : Neo2Hook) (e : KBDLLHOOKSTRUCT) (t : KeyPress)
    (hinj : e.flags &&& LLKHF_INJECTED ≠ 0) :
    h.do_handle_key e t = some (KeyAction.PASS_THROUGH, h) := by
  unfold Neo2Hook.do_handle_key
  rw [if_pos hinj]

theorem claimed_eq_false (e : KBDLLHOOKSTRUCT) (t : KeyPress)
    (h1 : ¬ (t = KeyPress.DOWN ∧ e.vkCode = VK_END)) (h2 : is_shift_key e = false)
    (h3 : is_mod3_key e = false) (h4 : is_mod4_key e = false) : claimed e t = false := by
  simp only [claimed, h2, h3, h4, Bool.or_false, Bool.and_eq_false_iff,
    decide_eq_false_iff_not, beq_eq_false_iff_ne]
  tauto

/-! ## Bypass mode -/

theorem bypass_step (h : Neo2Hook) (e : KBDLLHOOKSTRUCT) (t : KeyPress)
    (hb : h.bypass_requested = true) (hl : h.layer = Layer.ByPassLayer)
    (hno : ¬ (e.flags &&& LLKHF_INJECTED = 0 ∧ e.vkCode = VK_END ∧ t = KeyPress.DOWN)) :
    ∃ a h', h.do_handle_key e t = some (a, h') ∧ h'.bypass_requested = true
      ∧ h'.layer = Layer.ByPassLayer := by
  by_cases hinj : e.flags &&& LLKHF_INJECTED = 0
  · have h1 : ¬ (t = KeyPress.DOWN ∧ e.vkCode = VK_END) := by tauto
    cases h2 : is_shift_key e
    · cases h3 : is_mod3_key e
      · cases h4 : is_mod4_key e
        · rw [do_handle_key_unclaimed h e t hinj (claimed_eq_false e t h1 h2 h3 h4)]
          split_ifs
          · exact ⟨_, _, rfl, hb, hl⟩
          · rw [hl]
            exact ⟨_, _, rfl, hb, rfl⟩
        · rw [do_handle_key_mod4 h e t hinj h4]
          refine ⟨_, _, rfl, ?_, ?_⟩ <;> simp [Neo2Hook.determine_level, hb]
      · rw [do_handle_key_mod3 h e t hinj h3]
        refine ⟨_, _, rfl, ?_, ?_⟩ <;> simp [Neo2Hook.determine_level, hb]
    · rw [do_handle_key_shift h e t hinj h2]
      refine ⟨_, _, rfl, ?_, ?_⟩ <;> simp [Neo2Hook.determine_level, hb]
  · exact ⟨_, _, do_handle_key_injected h e t hinj, hb, hl⟩

theorem bypass_run (es : List (KBDLLHOOKSTRUCT × KeyPress)) :
    ∀ (h : Neo2Hook), h.bypass_requested = true → h.layer = Layer.ByPassLayer →
      (∀ p ∈ es, ¬ (p.1.flags &&& LLKHF_INJECTED = 0 ∧ p.1.vkCode = VK_END
                      ∧ p.2 = KeyPress.DOWN)) →
      ∃ acts h', h.run es = some (acts, h') ∧ h'.bypass_requested = true
        ∧ h'.layer = Layer.ByPassLayer := by
  induction es with
  | nil => intro h hb hl _; exact ⟨[], h, rfl, hb, hl⟩
  | cons p rest ih =>
    intro h hb hl hno
    obtain ⟨e, t⟩ := p
    obtain ⟨a, h1, hstep, hb1, hl1⟩ :=
      bypass_step h e t hb hl (hno (e, t) (List.mem_cons_self _ _))
    obtain ⟨acts, h2, hrun, hb2, hl2⟩ :=
      ih h1 hb1 hl1 (fun q hq => hno q (List.mem_cons_of_mem _ hq))
    exact ⟨a :: acts, h2, by simp [Neo2Hook.run, hstep, hrun], hb2, hl2⟩

theorem bypass_pass_iff (h : Neo2Hook) (e : KBDLLHOOKSTRUCT) (t : KeyPress)
    (hl : h.layer = Layer.ByPassLayer) :
    (∃ h', h.do_handle_key e t = some (KeyAction.PASS_THROUGH, h')
        ∧ h'.key_press_injector = h.key_press_injector)
      ↔ ¬ (e.flags &&& LLKHF_INJECTED = 0
            ∧ (is_mod3_key e = true ∨ is_mod4_key e = true
                ∨ (h.neo2_state.mod4_pressed = true ∧ e.vkCode = VK_LCONTROL))) := by
  by_cases hinj : e.flags &&& LLKHF_INJECTED = 0
  · by_cases h1 : t = KeyPress.DOWN ∧ e.vkCode = VK_END
    · obtain ⟨rfl, hvk⟩ := h1
      rw [do_handle_key_toggle h e hinj hvk]
      simp [Neo2Hook.determine_level, is_mod3_key, is_mod4_key, hvk, VK_END, VK_CAPITAL,
        VK_OEM_2, VK_RMENU, VK_OEM_102, VK_LCONTROL]
      split_ifs <;> rfl
    · cases h2 : is_shift_key e
      · cases h3 : is_mod3_key e
        · cases h4 : is_mod4_key e
          · rw [do_handle_key_unclaimed h e t hinj (claimed_eq_false e t h1 h2 h3 h4)]
            by_cases hc : h.neo2_state.mod4_pressed = true ∧ e.vkCode = VK_LCONTROL
            · simp [hc, hinj]
            · rw [if_neg hc, hl]
              simp [Layer.handle_key, ByPassLayer.handle_key, hc, hinj]
          · rw [do_handle_key_mod4 h e t hinj h4]
            simp [hinj]
        · rw [do_handle_key_mod3 h e t hinj h3]
          simp [hinj]
      · rw [do_handle_key_shift h e t hinj h2]
        have h3 : is_mod3_key e = false := by
          simp only [is_shift_key, Bool.or_eq_true, beq_iff_eq] at h2
          rcases h2 with (hc | hc) | hc <;>
            simp [is_mod3_key, hc, VK_SHIFT, VK_LSHIFT, VK_RSHIFT, VK_CAPITAL, VK_OEM_2]
        have h4 : is_mod4_key e = false := by
          simp only [is_shift_key, Bool.or_eq_true, beq_iff_eq] at h2
          rcases h2 with (hc | hc) | hc <;>
            simp [is_mod4_key, hc, VK_SHIFT, VK_LSHIFT, VK_RSHIFT, VK_RMENU, VK_OEM_102]
        have h5 : e.vkCode ≠ VK_LCONTROL := by
          simp only [is_shift_key, Bool.or_eq_true, beq_iff_eq] at h2
          rcases h2 with (hc | hc) | hc <;>
            simp [hc, VK_SHIFT, VK_LSHIFT, VK_RSHIFT, VK_LCONTROL]
        simp [Neo2Hook.determine_level, h3, h4, h5]
        split_ifs <;> rfl
  · rw [do_handle_key_injected h e t hinj]
    simp [hinj]

/-- C5, as stated, fails: from the initial state a Down of the toggle key
(End) enters bypass mode, and the next event, a Down of CapsLock, is answered
with `SUPPRESS`; a Down of right-Alt in that place is answered with `SUPPRESS`
too and sends a left-control key-up record. -/
theorem bypass_mode_modifier_refutes :
    Neo2Hook.new.run
        [({ vkCode := VK_END, scanCode := 0x4F, flags := LLKHF_EXTENDED, time := 0,
            dwExtraInfo := 0 }, KeyPress.DOWN),
         ({ vkCode := VK_CAPITAL, scanCode := 0x3A, flags := 0, time := 0,
            dwExtraInfo := 0 }, KeyPress.DOWN)]
      = some ([KeyAction.PASS_THROUGH, KeyAction.SUPPRESS],
          { key_press_injector := { sent := [] },
            neo2_state := { shift_pressed := false, mod3_pressed := true, mod4_pressed := false },
            layer := Layer.ByPassLayer, bypass_requested := true })
    ∧ Neo2Hook.new.run
        [({ vkCode := VK_END, scanCode := 0x4F, flags := LLKHF_EXTENDED, time := 0,
            dwExtraInfo := 0 }, KeyPress.DOWN),
         ({ vkCode := VK_RMENU, scanCode := 0x38, flags := LLKHF_EXTENDED, time := 0,
            dwExtraInfo := 0 }, KeyPress.DOWN)]
      = some ([KeyAction.PASS_THROUGH, KeyAction.SUPPRESS],
          { key_press_injector :=
              { sent := [{ type := INPUT_KEYBOARD, wVk := VK_LCONTROL, wScan := VK_LCONTROL,
                           dwFlags := KEYEVENTF_KEYUP }] },
            neo2_state := { shift_pressed := false, mod3_pressed := false, mod4_pressed := true },
            layer := Layer.ByPassLayer, bypass_requested := true }) := by
  constructor <;> decide

/-- C5, amended: a non-injected Down of the toggle key (End) that flips
`bypass_requested` to true is passed through without injection and makes
`ByPassLayer` the active layer.  After any further events that contain no
non-injected toggle Down, `bypass_requested` is still true and the active
layer is still `ByPassLayer`, and the next event is answered with
`PASS_THROUGH` and no injection exactly when it is not one of: a non-injected
mod3 key event, a non-injected mod4 key event, a non-injected left-control
event while `mod4_pressed` is true. -/
theorem bypass_mode_pass_through (h : Neo2Hook) (e : KBDLLHOOKSTRUCT)
    (hinj : e.flags &&& LLKHF_INJECTED = 0) (hvk : e.vkCode = VK_END)
    (hb : h.bypass_requested = false) :
    ∃ h1, h.do_handle_key e KeyPress.DOWN = some (KeyAction.PASS_THROUGH, h1)
      ∧ h1.key_press_injector = h.key_press_injector
      ∧ h1.bypass_requested = true ∧ h1.layer = Layer.ByPassLayer
      ∧ ∀ es : List (KBDLLHOOKSTRUCT × KeyPress),
          (∀ p ∈ es, ¬ (p.1.flags &&& LLKHF_INJECTED = 0 ∧ p.1.vkCode = VK_END
                          ∧ p.2 = KeyPress.DOWN)) →
          ∃ acts h2, h1.run es = some (acts, h2)
            ∧ h2.bypass_requested = true ∧ h2.layer = Layer.ByPassLayer
            ∧ ∀ (e' : KBDLLHOOKSTRUCT) (t' : KeyPress),
                (∃ h3, h2.do_handle_key e' t' = some (KeyAction.PASS_THROUGH, h3)
                    ∧ h3.key_press_injector = h2.key_press_injector)
                  ↔ ¬ (e'.flags &&& LLKHF_INJECTED = 0
                        ∧ (is_mod3_key e' = true ∨ is_mod4_key e' = true
                            ∨ (h2.neo2_state.mod4_pressed = true
                                ∧ e'.vkCode = VK_LCONTROL))) := by
  have hb1 : (Neo2Hook.determine_level
      { h with bypass_requested := !h.bypass_requested }).bypass_requested = true := by
    simp [Neo2Hook.determine_level, hb]
  have hl1 : (Neo2Hook.determine_level
      { h with bypass_requested := !h.bypass_requested }).layer = Layer.ByPassLayer := by
    simp [Neo2Hook.determine_level, hb]
  refine ⟨_, do_handle_key_toggle h e hinj hvk, ?_, hb1, hl1, fun es hes => ?_⟩
  · simp [Neo2Hook.determine_level, hb]
  · obtain ⟨acts, h2, hrun, hb2, hl2⟩ := bypass_run es _ hb1 hl1 hes
    exact ⟨acts, h2, hrun, hb2, hl2, fun e' t' => bypass_pass_iff h2 e' t' hl2⟩

theorem bypass_mode_pass_through_witness :
    (0 : Nat) &&& LLKHF_INJECTED = 0 ∧ Neo2Hook.new.bypass_requested = false
    ∧ ∃ h1, Neo2Hook.new.do_handle_key
          { vkCode := VK_END, scanCode := 0x4F, flags := 0, time := 0, dwExtraInfo := 0 }
          KeyPress.DOWN = some (KeyAction.PASS_THROUGH, h1)
        ∧ h1.bypass_requested = true ∧ h1.layer = Layer.ByPassLayer :=
  ⟨by decide, rfl, by
    obtain ⟨h1, hstep, _, hb1, hl1, _⟩ :=
      bypass_mode_pass_through Neo2Hook.new
        { vkCode := VK_END, scanCode := 0x4F, flags := 0, time := 0, dwExtraInfo := 0 }
        (by decide) rfl rfl
    exact ⟨h1, hstep, hb1, hl1⟩⟩

/-! ## Left control while mod4 is held -/

theorem run_snoc (es : List (KBDLLHOOKSTRUCT × KeyPress)) :
    ∀ (h0 h h' : Neo2Hook) (acts : List KeyAction) (e : KBDLLHOOKSTRUCT) (t : KeyPress)
      (a : KeyAction), h0.run es = some (acts, h) → h.do_handle_key e t = some (a, h') →
      h0.run (es ++ [(e, t)]) = some (acts ++ [a], h') := by
  induction es with
  | nil =>
    intro h0 h h' acts e t a hrun hstep
    simp only [Neo2Hook.run, Option.some.injEq, Prod.mk.injEq] at hrun
    obtain ⟨rfl, rfl⟩ := hrun
    simp [Neo2Hook.run, hstep]
  | cons p rest ih =>
    intro h0 h h' acts e t a hrun hstep
    obtain ⟨e0, t0⟩ := p
    simp only [List.cons_append, Neo2Hook.run]
    simp only [Neo2Hook.run] at hrun
    cases hfirst : h0.do_handle_key e0 t0 with
    | none => simp [hfirst] at hrun
    | some r =>
      obtain ⟨a0, hnext⟩ := r
      simp only [hfirst] at hrun ⊢
      cases hrest : hnext.run rest with
      | none => simp [hrest] at hrun
      | some r2 =>
        obtain ⟨acts2, hfin⟩ := r2
        simp only [hrest, Option.some.injEq, Prod.mk.injEq] at hrun
        obtain ⟨rfl, rfl⟩ := hrun
        simp [ih hnext hfin h' acts2 e t a hrest hstep]

/-- C6: with `mod4_pressed` true, a non-injected event whose virtual key is
left control is answered with `SUPPRESS` in either direction, for every scan
code and every active layer, and the hook object (injector log, flags, layer)
is returned unchanged.  Hence, after any sequence of events that leads to a
state with `mod4_pressed` true, such a left-control event is answered with
`SUPPRESS` and leaves that state in place. -/
theorem mod4_left_control_suppressed (h : Neo2Hook) (e : KBDLLHOOKSTRUCT) (t : KeyPress)
    (hm4 : h.neo2_state.mod4_pressed = true) (hinj : e.flags &&& LLKHF_INJECTED = 0)
    (hvk : e.vkCode = VK_LCONTROL) :
    h.do_handle_key e t = some (KeyAction.SUPPRESS, h)
    ∧ ∀ (h0 : Neo2Hook) (es : List (KBDLLHOOKSTRUCT × KeyPress)) (acts : List KeyAction),
        h0.run es = some (acts, h) →
        h0.run (es ++ [(e, t)]) = some (acts ++ [KeyAction.SUPPRESS], h) := by
  have hcl : claimed e t = false := by
    simp [claimed, is_shift_key, is_mod3_key, is_mod4_key, hvk, VK_LCONTROL, VK_END, VK_SHIFT,
      VK_LSHIFT, VK_RSHIFT, VK_CAPITAL, VK_OEM_2, VK_RMENU, VK_OEM_102]
  have hstep : h.do_handle_key e t = some (KeyAction.SUPPRESS, h) := by
    rw [do_handle_key_unclaimed h e t hinj hcl, if_pos ⟨hm4, hvk⟩]
  exact ⟨hstep, fun h0 es acts hrun => run_snoc es h0 h h acts e t _ hrun hstep⟩

theorem mod4_left_control_suppressed_witness :
    (0 : Nat) &&& LLKHF_INJECTED = 0
    ∧ Neo2Hook.do_handle_key
        { key_press_injector := { sent := [] },
          neo2_state := { shift_pressed := false, mod3_pressed := false, mod4_pressed := true },
          layer := Layer.Layer4, bypass_requested := false }
        { vkCode := VK_LCONTROL, scanCode := 0x1D, flags := 0, time := 0, dwExtraInfo := 0 }
        KeyPress.DOWN
      = some (KeyAction.SUPPRESS,
          { key_press_injector := { sent := [] },
            neo2_state := { shift_pressed := false, mod3_pressed := false, mod4_pressed := true },
            layer := Layer.Layer4, bypass_requested := false }) :=
  ⟨by decide,
    (mod4_left_control_suppressed _
      { vkCode := VK_LCONTROL, scanCode := 0x1D, flags := 0, time := 0, dwExtraInfo := 0 }
      KeyPress.DOWN rfl (by decide) rfl).1⟩

/-! ## Table bounds -/

theorem table_handle_key_some (T : StaticTranslationTable)
    (hlen : T.N ≤ T.translation_table.length) (inj : KeyPressInjector) (e : KBDLLHOOKSTRUCT)
    (t : KeyPress) : ∃ a inj', T.handle_key inj e t = some (a, inj') := by
  unfold StaticTranslationTable.handle_key
  split_ifs with hc
  · have hlt : e.scanCode < T.translation_table.length :=
      Nat.lt_of_lt_of_le hc.2.2 hlen
    simp only [StaticTranslationTable.translate, List.getElem?_eq_getElem hlt]
    split_ifs
    · exact ⟨_, _, rfl⟩
    · exact ⟨_, _, rfl⟩
  · exact ⟨_, _, rfl⟩

/-- The model does report an access outside the array: with the bound `N`
one larger than the array, scan code 64 gives `none`. -/
theorem table_handle_key_outside_is_none :
    StaticTranslationTable.handle_key { Layer1 with N := 65 } { sent := [] }
      { vkCode := 0, scanCode := 64, flags := 0, time := 0, dwExtraInfo := 0 } KeyPress.DOWN
      = none := by
  decide

theorem layer4_handle_key_some (inj : KeyPressInjector) (e : KBDLLHOOKSTRUCT) (t : KeyPress) :
    ∃ a inj', Layer4.handle_key inj e t = some (a, inj') := by
  unfold Layer4.handle_key
  split_ifs with hc
  · simp only [List.getElem?_eq_getElem hc.2]
    split_ifs
    · exact ⟨_, _, rfl⟩
    · exact ⟨_, _, rfl⟩
  · exact ⟨_, _, rfl⟩

theorem layer_handle_key_some (L : Layer) (inj : KeyPressInjector) (e : KBDLLHOOKSTRUCT)
    (t : KeyPress) : ∃ a inj', L.handle_key inj e t = some (a, inj') := by
  cases L
  · exact table_handle_key_some Layer1 (by decide) inj e t
  · exact table_handle_key_some Layer2 (by decide) inj e t
  · exact table_handle_key_some Layer3 (by decide) inj e t
  · exact layer4_handle_key_some inj e t
  · exact ⟨_, _, rfl⟩

theorem layer_handle_key_large_scan_code (L : Layer) (inj : KeyPressInjector)
    (e : KBDLLHOOKSTRUCT) (t : KeyPress) (hge : 64 ≤ e.scanCode) :
    L.handle_key inj e t = some (KeyAction.PASS_THROUGH, inj) := by
  cases L
  · exact table_handle_key_unmapped Layer1 inj e t
      (Or.inr (Or.inr (Or.inl hge)))
  · exact table_handle_key_unmapped Layer2 inj e t
      (Or.inr (Or.inr (Or.inl hge)))
  · exact table_handle_key_unmapped Layer3 inj e t
      (Or.inr (Or.inr (Or.inl hge)))
  · have hlen : Layer4.translation_table.length = 64 := rfl
    simp only [Layer.handle_key, Layer4.handle_key, hlen]
    rw [if_neg (by omega)]
  · rfl

/-- C7: each of the five tables has 64 entries, and for every scan code,
every flag word and every direction the `handle_key` of every layer returns a
decision, `SUPPRESS` or `PASS_THROUGH`, without reading outside its table (an
access outside the table is `none` in this model).  A scan code of 64 or more
is never looked up: the event is passed through and nothing is sent. -/
theorem layer_lookup_in_bounds (L : Layer) (inj : KeyPressInjector) (e : KBDLLHOOKSTRUCT)
    (t : KeyPress) :
    (∃ a inj', L.handle_key inj e t = some (a, inj')
        ∧ (a = KeyAction.SUPPRESS ∨ a = KeyAction.PASS_THROUGH))
    ∧ (64 ≤ e.scanCode → L.handle_key inj e t = some (KeyAction.PASS_THROUGH, inj))
    ∧ Layer1.translation_table.length = 64 ∧ Layer1.translation_map_size = 64
    ∧ Layer2.translation_table.length = 64 ∧ Layer2.translation_map_size = 64
    ∧ Layer3.translation_table.length = 64 ∧ Layer3.translation_map_size = 64
    ∧ Layer4.translation_table.length = 64 := by
  refine ⟨?_, layer_handle_key_large_scan_code L inj e t, rfl, rfl, rfl, rfl, rfl, rfl, rfl⟩
  obtain ⟨a, inj', hr⟩ := layer_handle_key_some L inj e t
  exact ⟨a, inj', hr, by cases a <;> simp⟩

/-! ## The mod3 scenario -/

/-- C8, as stated, fails: after a Down of CapsLock from the initial state, a
non-injected, non-extended Down event at scan code 17 whose virtual key is the
toggle key (End) is claimed by `handle_mod`: it is answered with
`PASS_THROUGH`, nothing is sent, and bypass mode is entered. -/
theorem mod3_scenario_toggle_key_refutes :
    Layer3.translation_table[17]? = some 0x5F
    ∧ Neo2Hook.new.run
        [({ vkCode := VK_CAPITAL, scanCode := 0x3A, flags := 0, time := 0,
            dwExtraInfo := 0 }, KeyPress.DOWN),
         ({ vkCode := VK_END, scanCode := 17, flags := 0, time := 0,
            dwExtraInfo := 0 }, KeyPress.DOWN)]
      = some ([KeyAction.SUPPRESS, KeyAction.PASS_THROUGH],
          { key_press_injector := { sent := [] },
            neo2_state := { shift_pressed := false, mod3_pressed := true, mod4_pressed := false },
            layer := Layer.ByPassLayer, bypass_requested := true }) := by
  constructor <;> decide

/-- C8, amended: from the initial state, a non-injected Down of a mod3 key is
answered with `SUPPRESS` and gives `mod3_pressed = true` with `Layer3` active;
then a non-injected, non-extended Down event at scan code 17 whose virtual key
is none of the toggle, Shift, mod3 and mod4 ids sends exactly one unicode
record for the underscore (0x5F) with direction Down and is answered with
`SUPPRESS`; then a non-injected Up of a mod3 key gives `mod3_pressed = false`
with `Layer1` active. -/
theorem mod3_scenario (e1 e2 e3 : KBDLLHOOKSTRUCT)
    (h1inj : e1.flags &&& LLKHF_INJECTED = 0) (h1 : is_mod3_key e1 = true)
    (h2inj : e2.flags &&& LLKHF_INJECTED = 0) (h2ext : e2.flags &&& LLKHF_EXTENDED = 0)
    (h2sc : e2.scanCode = 17)
    (h2vk : e2.vkCode ≠ VK_END ∧ is_shift_key e2 = false ∧ is_mod3_key e2 = false
              ∧ is_mod4_key e2 = false)
    (h3inj : e3.flags &&& LLKHF_INJECTED = 0) (h3 : is_mod3_key e3 = true) :
    Neo2Hook.new.do_handle_key e1 KeyPress.DOWN
      = some (KeyAction.SUPPRESS,
          { key_press_injector := { sent := [] },
            neo2_state := { shift_pressed := false, mod3_pressed := true, mod4_pressed := false },
            layer := Layer.Layer3, bypass_requested := false })
    ∧ Layer3.translation_table[17]? = some 0x5F
    ∧ Neo2Hook.do_handle_key
        { key_press_injector := { sent := [] },
          neo2_state := { shift_pressed := false, mod3_pressed := true, mod4_pressed := false },
          layer := Layer.Layer3, bypass_requested := false } e2 KeyPress.DOWN
      = some (KeyAction.SUPPRESS,
          { key_press_injector :=
              { sent := [{ type := INPUT_KEYBOARD, wVk := 0, wScan := 0x5F,
                           dwFlags := KEYEVENTF_UNICODE }] },
            neo2_state := { shift_pressed := false, mod3_pressed := true, mod4_pressed := false },
            layer := Layer.Layer3, bypass_requested := false })
    ∧ Neo2Hook.do_handle_key
        { key_press_injector :=
            { sent := [{ type := INPUT_KEYBOARD, wVk := 0, wScan := 0x5F,
                         dwFlags := KEYEVENTF_UNICODE }] },
          neo2_state := { shift_pressed := false, mod3_pressed := true, mod4_pressed := false },
          layer := Layer.Layer3, bypass_requested := false } e3 KeyPress.UP
      = some (KeyAction.SUPPRESS,
          { key_press_injector :=
              { sent := [{ type := INPUT_KEYBOARD, wVk := 0, wScan := 0x5F,
                           dwFlags := KEYEVENTF_UNICODE }] },
            neo2_state := { shift_pressed := false, mod3_pressed := false, mod4_pressed := false },
            layer := Layer.Layer1, bypass_requested := false }) := by
  refine ⟨?_, rfl, ?_, ?_⟩
  · rw [do_handle_key_mod3 _ e1 _ h1inj h1]; rfl
  · have hcl : claimed e2 KeyPress.DOWN = false :=
      claimed_eq_false e2 _ (fun hc => h2vk.1 hc.2) h2vk.2.1 h2vk.2.2.1 h2vk.2.2.2
    have hch : Layer3.translation_table[e2.scanCode]? = some 0x5F := by rw [h2sc]; rfl
    rw [do_handle_key_unclaimed _ e2 _ h2inj hcl, if_neg (by simp)]
    simp only [Layer.handle_key]
    rw [table_handle_key_mapped Layer3 _ e2 _ 0x5F h2ext (by omega)
      (by rw [h2sc]; decide) hch (by decide)]
    rfl
  · rw [do_handle_key_mod3 _ e3 _ h3inj h3]; rfl

theorem mod3_scenario_witness :
    Neo2Hook.new.run
        [({ vkCode := VK_CAPITAL, scanCode := 0x3A, flags := 0, time := 0,
            dwExtraInfo := 0 }, KeyPress.DOWN),
         ({ vkCode := 0x57, scanCode := 17, flags := 0, time := 0,
            dwExtraInfo := 0 }, KeyPress.DOWN),
         ({ vkCode := VK_CAPITAL, scanCode := 0x3A, flags := 0, time := 0,
            dwExtraInfo := 0 }, KeyPress.UP)]
      = some ([KeyAction.SUPPRESS, KeyAction.SUPPRESS, KeyAction.SUPPRESS],
          { key_press_injector :=
              { sent := [{ type := INPUT_KEYBOARD, wVk := 0, wScan := 0x5F,
                           dwFlags := KEYEVENTF_UNICODE }] },
            neo2_state := { shift_pressed := false, mod3_pressed := false, mod4_pressed := false },
            layer := Layer.Layer1, bypass_requested := false }) := by
  obtain ⟨hs1, _, hs2, hs3⟩ :=
    mod3_scenario
      { vkCode := VK_CAPITAL, scanCode := 0x3A, flags := 0, time := 0, dwExtraInfo := 0 }
      { vkCode := 0x57, scanCode := 17, flags := 0, time := 0, dwExtraInfo := 0 }
      { vkCode := VK_CAPITAL, scanCode := 0x3A, flags := 0, time := 0, dwExtraInfo := 0 }
      (by decide) (by decide) (by decide) (by decide) rfl (by decide) (by decide)
      (by decide)
  simp only [Neo2Hook.run, hs1, hs2, hs3]

/-! ## Modifier keys -/

/-- C9: in every state, bypass mode included, a non-injected event of a mod3
key (CapsLock or OEM_2) is answered with `SUPPRESS` and sets `mod3_pressed` to
whether the event is a Down, and a non-injected event of a mod4 key (right Alt
or OEM_102) is answered with `SUPPRESS` and sets `mod4_pressed` likewise; the
other two modifier flags and `bypass_requested` keep their values. -/
theorem mod_key_event (h : Neo2Hook) (e : KBDLLHOOKSTRUCT) (t : KeyPress)
    (hinj : e.flags &&& LLKHF_INJECTED = 0) :
    (e.vkCode = VK_CAPITAL ∨ e.vkCode = VK_OEM_2 →
      ∃ h', h.do_handle_key e t = some (KeyAction.SUPPRESS, h')
        ∧ h'.neo2_state.mod3_pressed = decide (t = KeyPress.DOWN)
        ∧ h'.neo2_state.shift_pressed = h.neo2_state.shift_pressed
        ∧ h'.neo2_state.mod4_pressed = h.neo2_state.mod4_pressed
        ∧ h'.bypass_requested = h.bypass_requested)
    ∧ (e.vkCode = VK_RMENU ∨ e.vkCode = VK_OEM_102 →
      ∃ h', h.do_handle_key e t = some (KeyAction.SUPPRESS, h')
        ∧ h'.neo2_state.mod4_pressed = decide (t = KeyPress.DOWN)
        ∧ h'.neo2_state.shift_pressed = h.neo2_state.shift_pressed
        ∧ h'.neo2_state.mod3_pressed = h.neo2_state.mod3_pressed
        ∧ h'.bypass_requested = h.bypass_requested) := by
  constructor
  · intro hvk
    have h3 : is_mod3_key e = true := by
      rcases hvk with hc | hc <;> simp [is_mod3_key, hc]
    refine ⟨_, do_handle_key_mod3 h e t hinj h3, ?_, ?_, ?_, ?_⟩ <;>
      · simp only [Neo2Hook.determine_level]
        split_ifs <;> rfl
  · intro hvk
    have h4 : is_mod4_key e = true := by
      rcases hvk with hc | hc <;> simp [is_mod4_key, hc]
    refine ⟨_, do_handle_key_mod4 h e t hinj h4, ?_, ?_, ?_, ?_⟩ <;>
      · simp only [Neo2Hook.determine_level]
        split_ifs <;> rfl

theorem mod_key_event_witness :
    (0 : Nat) &&& LLKHF_INJECTED = 0
    ∧ ∃ h', Neo2Hook.do_handle_key
          { key_press_injector := { sent := [] },
            neo2_state := { shift_pressed := true, mod3_pressed := false, mod4_pressed := false },
            layer := Layer.ByPassLayer, bypass_requested := true }
          { vkCode := VK_OEM_2, scanCode := 0x2B, flags := 0, time := 0, dwExtraInfo := 0 }
          KeyPress.DOWN = some (KeyAction.SUPPRESS, h')
        ∧ h'.neo2_state.mod3_pressed = true ∧ h'.neo2_state.shift_pressed = true
        ∧ h'.bypass_requested = true :=
  ⟨by decide, by
    obtain ⟨h', hstep, h3, hs, _, hb⟩ :=
      (mod_key_event
        { key_press_injector := { sent := [] },
          neo2_state := { shift_pressed := true, mod3_pressed := false, mod4_pressed := false },
          layer := Layer.ByPassLayer, bypass_requested := true }
        { vkCode := VK_OEM_2, scanCode := 0x2B, flags := 0, time := 0, dwExtraInfo := 0 }
        KeyPress.DOWN (by decide)).1 (Or.inr rfl)
    exact ⟨h', hstep, h3, hs, hb⟩⟩

/-- C10: for a non-injected event that `handle_mod` claims (a toggle Down, or
an event of a Shift, mod3 or mod4 key), something is sent exactly when the
event is a Down with virtual key right Alt (`VK_RMENU`); what is sent then is
one virtual-key record for left control with the key-up flag.  So a Down of
OEM_102, every Up of a mod4 key and every toggle, Shift and mod3 event leave
the injector log as it was. -/
theorem claimed_event_injection (h : Neo2Hook) (e : KBDLLHOOKSTRUCT) (t : KeyPress)
    (hinj : e.flags &&& LLKHF_INJECTED = 0)
    (hcl : (h.handle_mod e t KeyAction.PASS_THROUGH).1 = true) :
    ∃ a h', h.do_handle_key e t = some (a, h')
      ∧ (h'.key_press_injector ≠ h.key_press_injector ↔
          t = KeyPress.DOWN ∧ e.vkCode = VK_RMENU)
      ∧ (t = KeyPress.DOWN ∧ e.vkCode = VK_RMENU →
          h'.key_press_injector
            = { sent := h.key_press_injector.sent ++
                  [{ type := INPUT_KEYBOARD, wVk := VK_LCONTROL, wScan := VK_LCONTROL,
                     dwFlags := KEYEVENTF_KEYUP }] })
      ∧ (¬ (t = KeyPress.DOWN ∧ e.vkCode = VK_RMENU) →
          h'.key_press_injector = h.key_press_injector) := by
  rw [handle_mod_claims] at hcl
  have hdl : ∀ x : Neo2Hook, x.determine_level.key_press_injector = x.key_press_injector := by
    intro x
    simp only [Neo2Hook.determine_level]
    split_ifs <;> rfl
  have hsent : h.key_press_injector.inject_virtual_key VK_LCONTROL KeyPress.UP
      = { sent := h.key_press_injector.sent ++
            [{ type := INPUT_KEYBOARD, wVk := VK_LCONTROL, wScan := VK_LCONTROL,
               dwFlags := KEYEVENTF_KEYUP }] } := by
    rw [inject_virtual_key_sent]; rfl
  have hneq : h.key_press_injector.inject_virtual_key VK_LCONTROL KeyPress.UP
      ≠ h.key_press_injector := by
    rw [hsent]
    intro hc
    have := congrArg (fun k => k.sent.length) hc
    simp at this
  by_cases h1 : t = KeyPress.DOWN ∧ e.vkCode = VK_END
  · obtain ⟨rfl, hvk⟩ := h1
    have hne : ¬ (KeyPress.DOWN = KeyPress.DOWN ∧ e.vkCode = VK_RMENU) := by
      simp [hvk, VK_END, VK_RMENU]
    refine ⟨_, _, do_handle_key_toggle h e hinj hvk, ?_, fun hc => absurd hc hne, fun _ => hdl _⟩
    rw [hdl]
    exact ⟨fun hc => absurd rfl hc, fun hc => absurd hc hne⟩
  · cases h2 : is_shift_key e
    · cases h3 : is_mod3_key e
      · cases h4 : is_mod4_key e
        · rw [claimed_eq_false e t h1 h2 h3 h4] at hcl
          cases hcl
        · refine ⟨_, _, do_handle_key_mod4 h e t hinj h4, ?_, ?_, ?_⟩
          · rw [hdl]
            by_cases hc : t = KeyPress.DOWN ∧ e.vkCode = VK_RMENU
            · simp only [if_pos hc]
              exact ⟨fun _ => hc, fun _ => hneq⟩
            · simp only [if_neg hc]
              exact ⟨fun hx => absurd rfl hx, fun hx => absurd hx hc⟩
          · intro hc
            rw [hdl]
            simp only [if_pos hc]
            exact hsent
          · intro hc
            rw [hdl]
            simp only [if_neg hc]
      · have hne : ¬ (t = KeyPress.DOWN ∧ e.vkCode = VK_RMENU) := by
          rintro ⟨_, hc⟩
          simp [is_mod3_key, hc, VK_RMENU, VK_CAPITAL, VK_OEM_2] at h3
        refine ⟨_, _, do_handle_key_mod3 h e t hinj h3, ?_, fun hc => absurd hc hne,
          fun _ => hdl _⟩
        rw [hdl]
        exact ⟨fun hc => absurd rfl hc, fun hc => absurd hc hne⟩
    · have hne : ¬ (t = KeyPress.DOWN ∧ e.vkCode = VK_RMENU) := by
        rintro ⟨_, hc⟩
        simp [is_shift_key, hc, VK_RMENU, VK_SHIFT, VK_LSHIFT, VK_RSHIFT] at h2
      refine ⟨_, _, do_handle_key_shift h e t hinj h2, ?_, fun hc => absurd hc hne,
        fun _ => hdl _⟩
      rw [hdl]
      exact ⟨fun hc => absurd rfl hc, fun hc => absurd hc hne⟩

theorem claimed_event_injection_witness :
    (LLKHF_EXTENDED &&& LLKHF_INJECTED = 0)
    ∧ ∃ a h', Neo2Hook.new.do_handle_key
          { vkCode := VK_RMENU, scanCode := 0x38, flags := LLKHF_EXTENDED, time := 0,
            dwExtraInfo := 0 } KeyPress.DOWN = some (a, h')
        ∧ h'.key_press_injector
            = { sent := [] ++
                  [{ type := INPUT_KEYBOARD, wVk := VK_LCONTROL, wScan := VK_LCONTROL,
                     dwFlags := KEYEVENTF_KEYUP }] } :=
  ⟨by decide, by
    obtain ⟨a, h', hstep, _, hsent, _⟩ :=
      claimed_event_injection Neo2Hook.new
        { vkCode := VK_RMENU, scanCode := 0x38, flags := LLKHF_EXTENDED, time := 0,
          dwExtraInfo := 0 } KeyPress.DOWN (by decide) (by decide)
    exact ⟨a, h', hstep, hsent ⟨rfl, rfl⟩⟩⟩

/-! ## Shift and the toggle key -/

theorem determine_level_fields (x : Neo2Hook) :
    x.determine_level.key_press_injector = x.key_press_injector
    ∧ x.determine_level.neo2_state = x.neo2_state
    ∧ x.determine_level.bypass_requested = x.bypass_requested := by
  simp only [Neo2Hook.determine_level]
  split_ifs <;> exact ⟨rfl, rfl, rfl⟩

/-- C11: in every state a non-injected event whose virtual key is Shift, left
Shift or right Shift is answered with `PASS_THROUGH`, sends nothing, sets
`shift_pressed` to whether the event is a Down, and keeps `mod3_pressed`,
`mod4_pressed` and `bypass_requested`. -/
theorem shift_key_event (h : Neo2Hook) (e : KBDLLHOOKSTRUCT) (t : KeyPress)
    (hinj : e.flags &&& LLKHF_INJECTED = 0)
    (hvk : e.vkCode = VK_SHIFT ∨ e.vkCode = VK_LSHIFT ∨ e.vkCode = VK_RSHIFT) :
    ∃ h', h.do_handle_key e t = some (KeyAction.PASS_THROUGH, h')
      ∧ h'.key_press_injector = h.key_press_injector
      ∧ h'.neo2_state.shift_pressed = decide (t = KeyPress.DOWN)
      ∧ h'.neo2_state.mod3_pressed = h.neo2_state.mod3_pressed
      ∧ h'.neo2_state.mod4_pressed = h.neo2_state.mod4_pressed
      ∧ h'.bypass_requested = h.bypass_requested := by
  have hs : is_shift_key e = true := by
    rcases hvk with hc | hc | hc <;> simp [is_shift_key, hc]
  refine ⟨_, do_handle_key_shift h e t hinj hs, ?_, ?_, ?_, ?_, ?_⟩
  · exact (determine_level_fields _).1
  · rw [(determine_level_fields _).2.1]
  · rw [(determine_level_fields _).2.1]
  · rw [(determine_level_fields _).2.1]
  · exact (determine_level_fields _).2.2

theorem shift_key_event_witness :
    (0 : Nat) &&& LLKHF_INJECTED = 0
    ∧ ∃ h', Neo2Hook.new.do_handle_key
          { vkCode := VK_LSHIFT, scanCode := 0x2A, flags := 0, time := 0, dwExtraInfo := 0 }
          KeyPress.DOWN = some (KeyAction.PASS_THROUGH, h')
        ∧ h'.key_press_injector = Neo2Hook.new.key_press_injector
        ∧ h'.neo2_state.shift_pressed = true :=
  ⟨by decide, by
    obtain ⟨h', hstep, hk, hs, _⟩ :=
      shift_key_event Neo2Hook.new
        { vkCode := VK_LSHIFT, scanCode := 0x2A, flags := 0, time := 0, dwExtraInfo := 0 }
        KeyPress.DOWN (by decide) (Or.inr (Or.inl rfl))
    exact ⟨h', hstep, hk, hs⟩⟩

theorem do_handle_key_claimed (h : Neo2Hook) (e : KBDLLHOOKSTRUCT) (t : KeyPress)
    (hinj : e.flags &&& LLKHF_INJECTED = 0) (hcl : claimed e t = true) :
    h.do_handle_key e t
      = some ((h.handle_mod e t KeyAction.PASS_THROUGH).2.1,
          (h.handle_mod e t KeyAction.PASS_THROUGH).2.2.determine_level) := by
  have hm := handle_mod_claims h e t KeyAction.PASS_THROUGH
  rw [hcl] at hm
  unfold Neo2Hook.do_handle_key
  rw [if_neg (by simp [hinj])]
  simp only []
  generalize h.handle_mod e t KeyAction.PASS_THROUGH = r at hm
  obtain ⟨b, a, x⟩ := r
  simp only at hm
  subst hm
  rfl

theorem do_handle_key_some (h : Neo2Hook) (e : KBDLLHOOKSTRUCT) (t : KeyPress) :
    ∃ a h', h.do_handle_key e t = some (a, h') := by
  by_cases hinj : e.flags &&& LLKHF_INJECTED = 0
  · cases hcl : claimed e t
    · rw [do_handle_key_unclaimed h e t hinj hcl]
      split_ifs
      · exact ⟨_, _, rfl⟩
      · obtain ⟨a, inj', hr⟩ := layer_handle_key_some h.layer h.key_press_injector e t
        rw [hr]
        exact ⟨_, _, rfl⟩
    · exact ⟨_, _, do_handle_key_claimed h e t hinj hcl⟩
  · exact ⟨_, _, do_handle_key_injected h e t hinj⟩

theorem run_some (es : List (KBDLLHOOKSTRUCT × KeyPress)) :
    ∀ h : Neo2Hook, ∃ acts h', h.run es = some (acts, h') := by
  induction es with
  | nil => intro h; exact ⟨[], h, rfl⟩
  | cons p rest ih =>
    intro h
    obtain ⟨e, t⟩ := p
    obtain ⟨a, h1, hstep⟩ := do_handle_key_some h e t
    obtain ⟨acts, h2, hrun⟩ := ih h1
    exact ⟨a :: acts, h2, by simp [Neo2Hook.run, hstep, hrun]⟩

theorem determine_level_idem (x : Neo2Hook) :
    x.determine_level.determine_level = x.determine_level := by
  obtain ⟨inj, ⟨s, m3, m4⟩, l, b⟩ := x
  cases b <;> cases m4 <;> cases m3 <;> cases s <;> rfl

theorem determine_level_injector (x : Neo2Hook) (k : KeyPressInjector)
    (hx : x.determine_level = x) :
    Neo2Hook.determine_level { x with key_press_injector := k }
      = { x with key_press_injector := k } := by
  obtain ⟨inj, ⟨s, m3, m4⟩, l, b⟩ := x
  cases b <;> cases m4 <;> cases m3 <;> cases s <;>
    simp_all [Neo2Hook.determine_level]

/-- One call keeps the layer pointer in step with the flags. -/
theorem do_handle_key_consistent (h : Neo2Hook) (e : KBDLLHOOKSTRUCT) (t : KeyPress)
    (a : KeyAction) (h' : Neo2Hook) (hc : h.determine_level = h)
    (hstep : h.do_handle_key e t = some (a, h')) : h'.determine_level = h' := by
  by_cases hinj : e.flags &&& LLKHF_INJECTED = 0
  · cases hcl : claimed e t
    · rw [do_handle_key_unclaimed h e t hinj hcl] at hstep
      split_ifs at hstep
      · cases hstep; exact hc
      · obtain ⟨a0, inj', hr⟩ := layer_handle_key_some h.layer h.key_press_injector e t
        rw [hr] at hstep
        cases hstep
        exact determine_level_injector h inj' hc
    · rw [do_handle_key_claimed h e t hinj hcl] at hstep
      cases hstep
      exact determine_level_idem _
  · rw [do_handle_key_injected h e t hinj] at hstep
    cases hstep; exact hc

theorem run_consistent (es : List (KBDLLHOOKSTRUCT × KeyPress)) :
    ∀ (h : Neo2Hook) (acts : List KeyAction) (h' : Neo2Hook), h.determine_level = h →
      h.run es = some (acts, h') → h'.determine_level = h' := by
  induction es with
  | nil =>
    intro h acts h' hc hrun
    simp only [Neo2Hook.run, Option.some.injEq, Prod.mk.injEq] at hrun
    rw [← hrun.2]; exact hc
  | cons p rest ih =>
    intro h acts h' hc hrun
    obtain ⟨e, t⟩ := p
    obtain ⟨a, h1, hstep⟩ := do_handle_key_some h e t
    obtain ⟨acts1, h2, hrest⟩ := run_some rest h1
    simp only [Neo2Hook.run, hstep, hrest, Option.some.injEq, Prod.mk.injEq] at hrun
    rw [← hrun.2]
    exact ih h1 acts1 h2 (do_handle_key_consistent h e t a h1 hc hstep) hrest

theorem new_consistent : Neo2Hook.new.determine_level = Neo2Hook.new := rfl

theorem toggle_twice (h : Neo2Hook) :
    Neo2Hook.determine_level
        { Neo2Hook.determine_level { h with bypass_requested := !h.bypass_requested } with
          bypass_requested :=
            !(Neo2Hook.determine_level
                { h with bypass_requested := !h.bypass_requested }).bypass_requested }
      = h.determine_level := by
  obtain ⟨inj, ⟨s, m3, m4⟩, l, b⟩ := h
  cases b <;> cases m4 <;> cases m3 <;> cases s <;> rfl

/-- C12: in every state a non-injected Down of the toggle key (End) negates
`bypass_requested`, keeps the three modifier flags, sends nothing and is
answered with `PASS_THROUGH`.  A second such Down gives back the first state
with its layer re-derived from the flags, which is the first state itself
whenever that state is one the hook reaches from its constructor.  A
non-injected Up of the toggle key is not claimed: the result is that of the
active layer, and the flags, `bypass_requested` and the layer stay as they
were. -/
theorem toggle_key_event (h : Neo2Hook) (e e' : KBDLLHOOKSTRUCT)
    (hinj : e.flags &&& LLKHF_INJECTED = 0) (hvk : e.vkCode = VK_END)
    (hinj' : e'.flags &&& LLKHF_INJECTED = 0) (hvk' : e'.vkCode = VK_END) :
    (∃ h1, h.do_handle_key e KeyPress.DOWN = some (KeyAction.PASS_THROUGH, h1)
      ∧ h1.bypass_requested = (!h.bypass_requested)
      ∧ h1.neo2_state = h.neo2_state
      ∧ h1.key_press_injector = h.key_press_injector
      ∧ h1.do_handle_key e' KeyPress.DOWN = some (KeyAction.PASS_THROUGH, h.determine_level)
      ∧ ∀ (es : List (KBDLLHOOKSTRUCT × KeyPress)) (acts : List KeyAction),
          Neo2Hook.new.run es = some (acts, h) →
          h1.do_handle_key e' KeyPress.DOWN = some (KeyAction.PASS_THROUGH, h))
    ∧ h.do_handle_key e KeyPress.UP
        = (h.layer.handle_key h.key_press_injector e KeyPress.UP).map
            (fun r => (r.1, { h with key_press_injector := r.2 }))
    ∧ ∃ a h3, h.do_handle_key e KeyPress.UP = some (a, h3)
        ∧ h3.neo2_state = h.neo2_state ∧ h3.bypass_requested = h.bypass_requested
        ∧ h3.layer = h.layer := by
  have hsecond : (Neo2Hook.determine_level
        { h with bypass_requested := !h.bypass_requested }).do_handle_key e' KeyPress.DOWN
      = some (KeyAction.PASS_THROUGH, h.determine_level) := by
    rw [do_handle_key_toggle _ e' hinj' hvk', toggle_twice]
  have hcl : claimed e KeyPress.UP = false := by
    simp [claimed, is_shift_key, is_mod3_key, is_mod4_key, hvk, VK_END, VK_SHIFT, VK_LSHIFT,
      VK_RSHIFT, VK_CAPITAL, VK_OEM_2, VK_RMENU, VK_OEM_102]
  have hup : h.do_handle_key e KeyPress.UP
      = (h.layer.handle_key h.key_press_injector e KeyPress.UP).map
          (fun r => (r.1, { h with key_press_injector := r.2 })) := by
    rw [do_handle_key_unclaimed h e _ hinj hcl, if_neg]
    rintro ⟨_, hc⟩
    rw [hvk] at hc
    exact absurd hc (by decide)
  refine ⟨⟨_, do_handle_key_toggle h e hinj hvk, (determine_level_fields _).2.2,
    (determine_level_fields _).2.1, (determine_level_fields _).1, hsecond, ?_⟩, hup, ?_⟩
  · intro es acts hrun
    rw [hsecond, run_consistent es Neo2Hook.new acts h new_consistent hrun]
  · obtain ⟨a, inj', hr⟩ := layer_handle_key_some h.layer h.key_press_injector e KeyPress.UP
    rw [hup, hr]
    exact ⟨_, _, rfl, rfl, rfl, rfl⟩

theorem toggle_key_event_witness :
    (0 : Nat) &&& LLKHF_INJECTED = 0
    ∧ Neo2Hook.new.run
        [({ vkCode := VK_END, scanCode := 0x4F, flags := 0, time := 0, dwExtraInfo := 0 },
            KeyPress.DOWN),
         ({ vkCode := VK_END, scanCode := 0x4F, flags := 0, time := 0, dwExtraInfo := 0 },
            KeyPress.DOWN)]
      = some ([KeyAction.PASS_THROUGH, KeyAction.PASS_THROUGH], Neo2Hook.new) :=
  ⟨by decide, by
    obtain ⟨⟨h1, hfirst, _, _, _, _, hback⟩, _⟩ :=
      toggle_key_event Neo2Hook.new
        { vkCode := VK_END, scanCode := 0x4F, flags := 0, time := 0, dwExtraInfo := 0 }
        { vkCode := VK_END, scanCode := 0x4F, flags := 0, time := 0, dwExtraInfo := 0 }
        (by decide) rfl (by decide) rfl
    simp only [Neo2Hook.run, hfirst, hback [] [] rfl]⟩

/-! ## The stored layer -/

/-- C15: every finite sequence of `do_handle_key` calls from the constructed
hook runs to an end, and in the state it reaches the stored layer is the one
`determine_level` computes from `bypass_requested`, `mod4_pressed`,
`mod3_pressed` and `shift_pressed`: re-deriving the layer changes nothing. -/
theorem stored_layer_never_stale (es : List (KBDLLHOOKSTRUCT × KeyPress)) :
    ∃ acts h, Neo2Hook.new.run es = some (acts, h)
      ∧ h.determine_level = h
      ∧ h.layer =
          if h.bypass_requested then Layer.ByPassLayer
          else if h.neo2_state.mod4_pressed then Layer.Layer4
          else if h.neo2_state.mod3_pressed then Layer.Layer3
          else if h.neo2_state.shift_pressed then Layer.Layer2
          else Layer.Layer1 := by
  obtain ⟨acts, h, hrun⟩ := run_some es Neo2Hook.new
  have hc := run_consistent es Neo2Hook.new acts h new_consistent hrun
  refine ⟨acts, h, hrun, hc, ?_⟩
  obtain ⟨inj, ⟨s, m3, m4⟩, l, b⟩ := h
  cases b <;> cases m4 <;> cases m3 <;> cases s <;>
    simp_all [Neo2Hook.determine_level]

/-! ## Events that change no flag -/

/-- C16: an event that is injected, or that is none of a toggle Down, a Shift
event, a mod3 event and a mod4 event, leaves `shift_pressed`, `mod3_pressed`,
`mod4_pressed`, `bypass_requested` and the active layer as they were. -/
theorem unclaimed_event_frame (h : Neo2Hook) (e : KBDLLHOOKSTRUCT) (t : KeyPress)
    (hcase : e.flags &&& LLKHF_INJECTED ≠ 0
      ∨ (¬ (t = KeyPress.DOWN ∧ e.vkCode = VK_END) ∧ is_shift_key e = false
          ∧ is_mod3_key e = false ∧ is_mod4_key e = false)) :
    ∃ a h', h.do_handle_key e t = some (a, h')
      ∧ h'.neo2_state = h.neo2_state ∧ h'.bypass_requested = h.bypass_requested
      ∧ h'.layer = h.layer := by
  by_cases hinj : e.flags &&& LLKHF_INJECTED = 0
  · rcases hcase with hc | ⟨h1, h2, h3, h4⟩
    · exact absurd hinj hc
    · rw [do_handle_key_unclaimed h e t hinj (claimed_eq_false e t h1 h2 h3 h4)]
      split_ifs
      · exact ⟨_, _, rfl, rfl, rfl, rfl⟩
      · obtain ⟨a, inj', hr⟩ := layer_handle_key_some h.layer h.key_press_injector e t
        rw [hr]
        exact ⟨_, _, rfl, rfl, rfl, rfl⟩
  · exact ⟨_, _, do_handle_key_injected h e t hinj, rfl, rfl, rfl⟩

theorem unclaimed_event_frame_witness :
    ∃ a h',
      Neo2Hook.do_handle_key
          { key_press_injector := { sent := [] },
            neo2_state := { shift_pressed := false, mod3_pressed := true, mod4_pressed := false },
            layer := Layer.Layer3, bypass_requested := false }
          { vkCode := 0x57, scanCode := 17, flags := 0, time := 0, dwExtraInfo := 0 }
          KeyPress.DOWN = some (a, h')
      ∧ h'.neo2_state
          = { shift_pressed := false, mod3_pressed := true, mod4_pressed := false }
      ∧ h'.bypass_requested = false ∧ h'.layer = Layer.Layer3 :=
  unclaimed_event_frame
    { key_press_injector := { sent := [] },
      neo2_state := { shift_pressed := false, mod3_pressed := true, mod4_pressed := false },
      layer := Layer.Layer3, bypass_requested := false }
    { vkCode := 0x57, scanCode := 17, flags := 0, time := 0, dwExtraInfo := 0 }
    KeyPress.DOWN (Or.inr ⟨by decide, by decide, by decide, by decide⟩)

/-! ## Layer4 and the unmapped keys of the table layers -/

theorem layer4_entries_small : ∀ v ∈ Layer4.translation_table, v < 2 ^ 16 := by
  decide

/-- C13: `Layer4` never looks at the flags of the event.  When the scan code
is below 64 and the table entry there is a non-zero virtual-key id, exactly
one virtual-key record for that id with the direction of the event is sent
and the answer is `SUPPRESS`; when the entry is 0 or the scan code is 64 or
more, nothing is sent and the answer is `PASS_THROUGH`.  One of the two cases
always applies. -/
theorem layer4_lookup (inj : KeyPressInjector) (e : KBDLLHOOKSTRUCT) (t : KeyPress) :
    (∀ vk, Layer4.translation_table[e.scanCode]? = some vk → vk ≠ 0 →
        e.scanCode < 64
        ∧ Layer4.handle_key inj e t
          = some (KeyAction.SUPPRESS,
              { sent := inj.sent ++
                  [{ type := INPUT_KEYBOARD, wVk := vk, wScan := vk,
                     dwFlags := if t = KeyPress.UP then KEYEVENTF_KEYUP else 0 }] }))
    ∧ (64 ≤ e.scanCode ∨ Layer4.translation_table[e.scanCode]? = some 0 →
        Layer4.handle_key inj e t = some (KeyAction.PASS_THROUGH, inj))
    ∧ (64 ≤ e.scanCode ∨ ∃ vk, Layer4.translation_table[e.scanCode]? = some vk) := by
  have hlen : Layer4.translation_table.length = 64 := rfl
  refine ⟨?_, ?_, ?_⟩
  · intro vk hvk hne
    have hlt : e.scanCode < Layer4.translation_table.length := by
      by_contra hge
      rw [List.getElem?_eq_none (Nat.le_of_not_lt hge)] at hvk
      cases hvk
    have hsmall : vk < 2 ^ 16 :=
      layer4_entries_small vk (List.getElem?_mem hvk)
    refine ⟨by omega, ?_⟩
    unfold Layer4.handle_key
    rw [if_pos ⟨Nat.zero_le _, hlt⟩]
    simp only [hvk]
    rw [if_pos hne, inject_virtual_key_sent, Nat.mod_eq_of_lt hsmall]
  · rintro (hge | hz)
    · unfold Layer4.handle_key
      rw [if_neg (by omega)]
    · unfold Layer4.handle_key
      split_ifs
      · simp [hz]
      · rfl
  · by_cases hlt : e.scanCode < Layer4.translation_table.length
    · exact Or.inr ⟨_, List.getElem?_eq_getElem hlt⟩
    · exact Or.inl (by omega)

/-- C14: for each of Layer1, Layer2 and Layer3, an event that has the extended
flag set, or whose scan code is 0 or at least 64, or whose table entry is 0, is
answered with `PASS_THROUGH` and sends nothing; and the layer answers
`SUPPRESS` exactly when the event is not extended, its scan code lies strictly
between 0 and 64 and the table entry there is non-zero. -/
theorem table_layer_unmapped_key (T : StaticTranslationTable) (hT : T ∈ tableLayers)
    (inj : KeyPressInjector) (e : KBDLLHOOKSTRUCT) (t : KeyPress) :
    (e.flags &&& LLKHF_EXTENDED ≠ 0 ∨ e.scanCode = 0 ∨ 64 ≤ e.scanCode
        ∨ T.translation_table[e.scanCode]? = some 0 →
      T.handle_key inj e t = some (KeyAction.PASS_THROUGH, inj))
    ∧ ((∃ inj', T.handle_key inj e t = some (KeyAction.SUPPRESS, inj')) ↔
        e.flags &&& LLKHF_EXTENDED = 0 ∧ 0 < e.scanCode ∧ e.scanCode < 64
          ∧ ∃ ch, T.translation_table[e.scanCode]? = some ch ∧ ch ≠ 0) := by
  obtain ⟨hN, hlen, _, hfb⟩ := tableLayers_entry T hT
  have hpass : e.flags &&& LLKHF_EXTENDED ≠ 0 ∨ e.scanCode = 0 ∨ 64 ≤ e.scanCode
      ∨ T.translation_table[e.scanCode]? = some 0 →
      T.handle_key inj e t = some (KeyAction.PASS_THROUGH, inj) := by
    intro hc
    rw [table_handle_key_unmapped T inj e t (by rw [hN]; exact hc), hfb]
  refine ⟨hpass, ⟨?_, ?_⟩⟩
  · rintro ⟨inj', hs⟩
    by_cases hext : e.flags &&& LLKHF_EXTENDED = 0
    · by_cases hlt : e.scanCode < 64
      · obtain ⟨ch, hch⟩ : ∃ ch, T.translation_table[e.scanCode]? = some ch :=
          ⟨_, List.getElem?_eq_getElem (by omega)⟩
        by_cases hz : ch = 0
        · rw [hpass (Or.inr (Or.inr (Or.inr (hz ▸ hch))))] at hs
          cases hs
        · refine ⟨hext, ?_, hlt, ch, hch, hz⟩
          rcases Nat.eq_zero_or_pos e.scanCode with h0 | hpos
          · rw [hpass (Or.inr (Or.inl h0))] at hs
            cases hs
          · exact hpos
      · rw [hpass (Or.inr (Or.inr (Or.inl (by omega))))] at hs
        cases hs
    · rw [hpass (Or.inl hext)] at hs
      cases hs
  · rintro ⟨hext, hpos, hlt, ch, hch, hne⟩
    exact ⟨_, table_handle_key_mapped T inj e t ch hext hpos (by omega) hch hne⟩

theorem table_layer_unmapped_key_witness :
    Layer2 ∈ tableLayers
    ∧ Layer2.handle_key { sent := [] }
        { vkCode := 0xBC, scanCode := 51, flags := 0, time := 0, dwExtraInfo := 0 }
        KeyPress.DOWN
      = some (KeyAction.PASS_THROUGH, { sent := [] }) :=
  ⟨by simp [tableLayers],
    (table_layer_unmapped_key Layer2 (by simp [tableLayers]) { sent := [] }
      { vkCode := 0xBC, scanCode := 51, flags := 0, time := 0, dwExtraInfo := 0 }
      KeyPress.DOWN).1 (Or.inr (Or.inr (Or.inr rfl)))⟩

/-! ## What one call sends -/

theorem inject_key_alnum (inj : KeyPressInjector) (ch : Nat) (d : KeyPress)
    (h : is_ascii_alnum ch = true) :
    inj.inject_key ch d = inj.inject_virtual_key (if 0x61 ≤ ch then ch - 32 else ch) d := by
  rw [is_ascii_alnum_iff] at h
  rcases h with h | h | h
  · rw [if_neg (by omega)]; exact inject_key_digit_or_upper inj ch d (Or.inr h)
  · rw [if_pos (by omega)]; exact inject_key_lower inj ch d h
  · rw [if_neg (by omega)]; exact inject_key_digit_or_upper inj ch d (Or.inl h)

/-- The record `inject_key` sends for a Down, and the fact that the record
for an Up is the same one with the key-up flag added. -/
theorem inject_key_pair (ch : Nat) :
    ∃ ev : INPUT, ev.dwFlags &&& KEYEVENTF_KEYUP = 0
      ∧ ∀ inj : KeyPressInjector,
          inj.inject_key ch KeyPress.DOWN = { sent := inj.sent ++ [ev] }
          ∧ inj.inject_key ch KeyPress.UP
            = { sent := inj.sent ++
                  [{ ev with dwFlags := ev.dwFlags ||| KEYEVENTF_KEYUP }] } := by
  cases halnum : is_ascii_alnum ch
  · refine ⟨{ type := INPUT_KEYBOARD, wVk := 0, wScan := ch, dwFlags := KEYEVENTF_UNICODE },
      (by decide : KEYEVENTF_UNICODE &&& KEYEVENTF_KEYUP = 0), fun inj => ⟨?_, ?_⟩⟩
    · rw [inject_key_other inj ch _ halnum, inject_unicode_key_sent]; rfl
    · rw [inject_key_other inj ch _ halnum, inject_unicode_key_sent]; rfl
  · refine ⟨{ type := INPUT_KEYBOARD, wVk := (if 0x61 ≤ ch then ch - 32 else ch) % 2 ^ 16,
              wScan := if 0x61 ≤ ch then ch - 32 else ch, dwFlags := 0 },
      (by decide : 0 &&& KEYEVENTF_KEYUP = 0), fun inj => ⟨?_, ?_⟩⟩
    · rw [inject_key_alnum inj ch _ halnum, inject_virtual_key_sent]; rfl
    · rw [inject_key_alnum inj ch _ halnum, inject_virtual_key_sent]
      simp [KEYEVENTF_KEYUP]

/-- The decision of a layer does not depend on the direction, and what it
sends for an Up is what it sends for a Down with the key-up flag added. -/
theorem layer_handle_key_pair (L : Layer) (e : KBDLLHOOKSTRUCT) :
    ∃ (a : KeyAction) (out : List INPUT),
      (out = [] ∨ (a = KeyAction.SUPPRESS
          ∧ ∃ ev : INPUT, out = [ev] ∧ ev.dwFlags &&& KEYEVENTF_KEYUP = 0))
      ∧ ∀ inj : KeyPressInjector,
          L.handle_key inj e KeyPress.DOWN = some (a, { sent := inj.sent ++ out })
          ∧ L.handle_key inj e KeyPress.UP
            = some (a, ⟨inj.sent ++
                out.map (fun ev => { ev with dwFlags := ev.dwFlags ||| KEYEVENTF_KEYUP })⟩) := by
  have htable : ∀ T ∈ tableLayers, ∃ (a : KeyAction) (out : List INPUT),
      (out = [] ∨ (a = KeyAction.SUPPRESS
          ∧ ∃ ev : INPUT, out = [ev] ∧ ev.dwFlags &&& KEYEVENTF_KEYUP = 0))
      ∧ ∀ inj : KeyPressInjector,
          T.handle_key inj e KeyPress.DOWN = some (a, { sent := inj.sent ++ out })
          ∧ T.handle_key inj e KeyPress.UP
            = some (a, ⟨inj.sent ++
                out.map (fun ev => { ev with dwFlags := ev.dwFlags ||| KEYEVENTF_KEYUP })⟩) := by
    intro T hT
    obtain ⟨hN, hlen, _, hfb⟩ := tableLayers_entry T hT
    have hpass : e.flags &&& LLKHF_EXTENDED ≠ 0 ∨ e.scanCode = 0 ∨ T.N ≤ e.scanCode
        ∨ T.translation_table[e.scanCode]? = some 0 →
        ∃ (a : KeyAction) (out : List INPUT),
          (out = [] ∨ (a = KeyAction.SUPPRESS
              ∧ ∃ ev : INPUT, out = [ev] ∧ ev.dwFlags &&& KEYEVENTF_KEYUP = 0))
          ∧ ∀ inj : KeyPressInjector,
              T.handle_key inj e KeyPress.DOWN = some (a, { sent := inj.sent ++ out })
              ∧ T.handle_key inj e KeyPress.UP
                = some (a, ⟨inj.sent ++
                    out.map (fun ev =>
                      { ev with dwFlags := ev.dwFlags ||| KEYEVENTF_KEYUP })⟩) := by
      intro hc
      refine ⟨KeyAction.PASS_THROUGH, [], Or.inl rfl, fun inj => ⟨?_, ?_⟩⟩
      · rw [table_handle_key_unmapped T inj e _ hc, hfb]; simp
      · rw [table_handle_key_unmapped T inj e _ hc, hfb]; simp
    by_cases hext : e.flags &&& LLKHF_EXTENDED = 0
    · by_cases hlt : e.scanCode < T.N
      · rcases Nat.eq_zero_or_pos e.scanCode with h0 | hpos
        · exact hpass (Or.inr (Or.inl h0))
        · obtain ⟨ch, hch⟩ : ∃ ch, T.translation_table[e.scanCode]? = some ch :=
            ⟨_, List.getElem?_eq_getElem (by omega)⟩
          by_cases hz : ch = 0
          · exact hpass (Or.inr (Or.inr (Or.inr (hz ▸ hch))))
          · obtain ⟨ev, hev, hpair⟩ := inject_key_pair ch
            refine ⟨KeyAction.SUPPRESS, [ev], Or.inr ⟨rfl, ev, rfl, hev⟩, fun inj => ⟨?_, ?_⟩⟩
            · rw [table_handle_key_mapped T inj e _ ch hext hpos hlt hch hz, (hpair inj).1]
            · rw [table_handle_key_mapped T inj e _ ch hext hpos hlt hch hz, (hpair inj).2]
              rfl
      · exact hpass (Or.inr (Or.inr (Or.inl (by omega))))
    · exact hpass (Or.inl hext)
  cases L
  · exact htable Layer1 (by simp [tableLayers])
  · exact htable Layer2 (by simp [tableLayers])
  · exact htable Layer3 (by simp [tableLayers])
  · have hlen : Layer4.translation_table.length = 64 := rfl
    by_cases hlt : e.scanCode < Layer4.translation_table.length
    · obtain ⟨vk, hvk⟩ : ∃ vk, Layer4.translation_table[e.scanCode]? = some vk :=
        ⟨_, List.getElem?_eq_getElem hlt⟩
      by_cases hz : vk = 0
      · refine ⟨KeyAction.PASS_THROUGH, [], Or.inl rfl, fun inj => ⟨?_, ?_⟩⟩ <;>
          simp [Layer.handle_key, Layer4.handle_key, hlt, hvk, hz]
      · refine ⟨KeyAction.SUPPRESS,
          [{ type := INPUT_KEYBOARD, wVk := vk % 2 ^ 16, wScan := vk, dwFlags := 0 }],
          Or.inr ⟨rfl, _, rfl, (by decide : 0 &&& KEYEVENTF_KEYUP = 0)⟩,
          fun inj => ⟨?_, ?_⟩⟩ <;>
          simp [Layer.handle_key, Layer4.handle_key, hlt, hvk, hz, inject_virtual_key_sent,
            KEYEVENTF_KEYUP]
    · refine ⟨KeyAction.PASS_THROUGH, [], Or.inl rfl, fun inj => ⟨?_, ?_⟩⟩ <;>
        simp [Layer.handle_key, Layer4.handle_key, hlt]
  · exact ⟨KeyAction.PASS_THROUGH, [], Or.inl rfl, fun inj => ⟨by simp [Layer.handle_key,
      ByPassLayer.handle_key], by simp [Layer.handle_key, ByPassLayer.handle_key]⟩⟩

theorem layer_handle_key_effect (L : Layer) (inj : KeyPressInjector) (e : KBDLLHOOKSTRUCT)
    (t : KeyPress) :
    ∃ a inj', L.handle_key inj e t = some (a, inj')
      ∧ (inj' = inj ∨ (a = KeyAction.SUPPRESS ∧ ∃ ev, inj' = { sent := inj.sent ++ [ev] })) := by
  obtain ⟨a, out, hout, hpair⟩ := layer_handle_key_pair L e
  cases t
  · refine ⟨_, _, (hpair inj).2, ?_⟩
    rcases hout with rfl | ⟨ha, ev, rfl, _⟩
    · left; simp
    · right; exact ⟨ha, _, rfl⟩
  · refine ⟨_, _, (hpair inj).1, ?_⟩
    rcases hout with rfl | ⟨ha, ev, rfl, _⟩
    · left; simp
    · right; exact ⟨ha, _, rfl⟩

theorem append_singleton_ne (k : KeyPressInjector) (ev : INPUT) :
    ({ sent := k.sent ++ [ev] } : KeyPressInjector) ≠ k := by
  intro hc
  have := congrArg (fun x => x.sent.length) hc
  simp at this

/-- C17: in every state and for every event one call of `do_handle_key`
returns, and it sends nothing or exactly one record.  Whenever it sends a
record the decision is `SUPPRESS`; this covers the record a layer sends for a
translated key, which is therefore never passed through as well. -/
theorem at_most_one_injection (h : Neo2Hook) (e : KBDLLHOOKSTRUCT) (t : KeyPress) :
    ∃ a h', h.do_handle_key e t = some (a, h')
      ∧ (h'.key_press_injector = h.key_press_injector
          ∨ ∃ ev, h'.key_press_injector = { sent := h.key_press_injector.sent ++ [ev] })
      ∧ (h'.key_press_injector ≠ h.key_press_injector → a = KeyAction.SUPPRESS) := by
  by_cases hinj : e.flags &&& LLKHF_INJECTED = 0
  · by_cases h1 : t = KeyPress.DOWN ∧ e.vkCode = VK_END
    · obtain ⟨rfl, hvk⟩ := h1
      refine ⟨_, _, do_handle_key_toggle h e hinj hvk, Or.inl ?_, fun hne => absurd ?_ hne⟩ <;>
        exact (determine_level_fields _).1
    · cases h2 : is_shift_key e
      · cases h3 : is_mod3_key e
        · cases h4 : is_mod4_key e
          · rw [do_handle_key_unclaimed h e t hinj (claimed_eq_false e t h1 h2 h3 h4)]
            split_ifs
            · exact ⟨_, _, rfl, Or.inl rfl, fun hne => absurd rfl hne⟩
            · obtain ⟨a, inj', hr, heff⟩ :=
                layer_handle_key_effect h.layer h.key_press_injector e t
              rw [hr]
              refine ⟨_, _, rfl, ?_, ?_⟩
              · rcases heff with rfl | ⟨_, ev, rfl⟩
                · exact Or.inl rfl
                · exact Or.inr ⟨ev, rfl⟩
              · intro hne
                rcases heff with rfl | ⟨ha, _⟩
                · exact absurd rfl hne
                · exact ha
          · refine ⟨_, _, do_handle_key_mod4 h e t hinj h4, ?_, fun _ => rfl⟩
            rw [(determine_level_fields _).1]
            by_cases hc : t = KeyPress.DOWN ∧ e.vkCode = VK_RMENU
            · right
              simp only [if_pos hc]
              exact ⟨_, inject_virtual_key_sent _ _ _⟩
            · left
              simp only [if_neg hc]
        · exact ⟨_, _, do_handle_key_mod3 h e t hinj h3, Or.inl (determine_level_fields _).1,
            fun _ => rfl⟩
      · refine ⟨_, _, do_handle_key_shift h e t hinj h2, Or.inl ?_, fun hne => absurd ?_ hne⟩ <;>
          exact (determine_level_fields _).1
  · exact ⟨_, _, do_handle_key_injected h e t hinj, Or.inl rfl, fun hne => absurd rfl hne⟩

/-! ## Down and Up of an ordinary key -/

theorem unclaimed_pair (st : Neo2State) (l : Layer) (b : Bool) (e : KBDLLHOOKSTRUCT)
    (hinj : e.flags &&& LLKHF_INJECTED = 0)
    (hvk : e.vkCode ≠ VK_END ∧ is_shift_key e = false ∧ is_mod3_key e = false
            ∧ is_mod4_key e = false) :
    ∃ (a : KeyAction) (out : List INPUT),
      (out = [] ∨ ∃ ev : INPUT, out = [ev] ∧ ev.dwFlags &&& KEYEVENTF_KEYUP = 0)
      ∧ ∀ k : KeyPressInjector,
          Neo2Hook.do_handle_key
              { key_press_injector := k, neo2_state := st, layer := l, bypass_requested := b }
              e KeyPress.DOWN
            = some (a, { key_press_injector := { sent := k.sent ++ out }, neo2_state := st,
                         layer := l, bypass_requested := b })
          ∧ Neo2Hook.do_handle_key
              { key_press_injector := k, neo2_state := st, layer := l, bypass_requested := b }
              e KeyPress.UP
            = some (a, { key_press_injector :=
                           ⟨k.sent ++ out.map (fun ev =>
                              { ev with dwFlags := ev.dwFlags ||| KEYEVENTF_KEYUP })⟩,
                         neo2_state := st, layer := l, bypass_requested := b }) := by
  have hcl : ∀ t, claimed e t = false := fun t =>
    claimed_eq_false e t (fun hc => hvk.1 hc.2) hvk.2.1 hvk.2.2.1 hvk.2.2.2
  by_cases hc : st.mod4_pressed = true ∧ e.vkCode = VK_LCONTROL
  · refine ⟨KeyAction.SUPPRESS, [], Or.inl rfl, fun k => ⟨?_, ?_⟩⟩
    · rw [do_handle_key_unclaimed _ e _ hinj (hcl _), if_pos hc]; simp
    · rw [do_handle_key_unclaimed _ e _ hinj (hcl _), if_pos hc]; simp
  · obtain ⟨a, out, hout, hpair⟩ := layer_handle_key_pair l e
    refine ⟨a, out, ?_, fun k => ⟨?_, ?_⟩⟩
    · rcases hout with ho | ⟨_, ev, ho, hev⟩
      · exact Or.inl ho
      · exact Or.inr ⟨ev, ho, hev⟩
    · rw [do_handle_key_unclaimed _ e _ hinj (hcl _), if_neg hc]
      simp only [(hpair k).1, Option.map_some']
    · rw [do_handle_key_unclaimed _ e _ hinj (hcl _), if_neg hc]
      simp only [(hpair k).2, Option.map_some']

/-- C18: for a non-injected event whose virtual key is none of End, Shift,
mod3 and mod4, handling it as a Down and handling it as an Up from the same
state give the same decision and change nothing but the injector log; either
both send nothing, or the Down sends one record without the key-up flag and
the Up sends that same record with the key-up flag added.  A Down followed by
an Up of the key therefore gets the decision twice and, if anything is sent,
the matching pair of records. -/
theorem down_up_pair (h : Neo2Hook) (e : KBDLLHOOKSTRUCT)
    (hinj : e.flags &&& LLKHF_INJECTED = 0)
    (hvk : e.vkCode ≠ VK_END ∧ is_shift_key e = false ∧ is_mod3_key e = false
            ∧ is_mod4_key e = false) :
    ∃ (a : KeyAction) (out : List INPUT),
      (out = [] ∨ ∃ ev : INPUT, out = [ev] ∧ ev.dwFlags &&& KEYEVENTF_KEYUP = 0)
      ∧ h.do_handle_key e KeyPress.DOWN
          = some (a, { h with
              key_press_injector := { sent := h.key_press_injector.sent ++ out } })
      ∧ h.do_handle_key e KeyPress.UP
          = some (a, { h with
              key_press_injector :=
                ⟨h.key_press_injector.sent ++ out.map (fun ev =>
                  { ev with dwFlags := ev.dwFlags ||| KEYEVENTF_KEYUP })⟩ })
      ∧ h.run [(e, KeyPress.DOWN), (e, KeyPress.UP)]
          = some ([a, a], { h with
              key_press_injector :=
                ⟨h.key_press_injector.sent ++ (out ++ out.map (fun ev =>
                  { ev with dwFlags := ev.dwFlags ||| KEYEVENTF_KEYUP }))⟩ }) := by
  obtain ⟨k, st, l, b⟩ := h
  obtain ⟨a, out, hout, hpair⟩ := unclaimed_pair st l b e hinj hvk
  refine ⟨a, out, hout, (hpair k).1, (hpair k).2, ?_⟩
  simp only [Neo2Hook.run, (hpair k).1, (hpair _).2, List.append_assoc]

theorem down_up_pair_witness :
    (0 : Nat) &&& LLKHF_INJECTED = 0
    ∧ ∃ (a : KeyAction) (out : List INPUT),
        Neo2Hook.new.do_handle_key
            { vkCode := 0x51, scanCode := 16, flags := 0, time := 0, dwExtraInfo := 0 }
            KeyPress.DOWN
          = some (a, { Neo2Hook.new with
              key_press_injector := { sent := Neo2Hook.new.key_press_injector.sent ++ out } })
        ∧ Neo2Hook.new.do_handle_key
            { vkCode := 0x51, scanCode := 16, flags := 0, time := 0, dwExtraInfo := 0 }
            KeyPress.UP
          = some (a, { Neo2Hook.new with
              key_press_injector :=
                ⟨Neo2Hook.new.key_press_injector.sent ++ out.map (fun ev =>
                  { ev with dwFlags := ev.dwFlags ||| KEYEVENTF_KEYUP })⟩ }) :=
  ⟨by decide, by
    obtain ⟨a, out, _, hd, hu, _⟩ :=
      down_up_pair Neo2Hook.new
        { vkCode := 0x51, scanCode := 16, flags := 0, time := 0, dwExtraInfo := 0 }
        (by decide) ⟨by decide, by decide, by decide, by decide⟩
    exact ⟨a, out, hd, hu⟩⟩

/-! ## Letter keys on Layer1 and Layer2 -/

theorem layer1_lower_layer2_upper_table :
    ∀ s, s < 64 →
      0x61 ≤ Layer1.translation_table.getD s 0 → Layer1.translation_table.getD s 0 ≤ 0x7A →
      Layer2.translation_table[s]? = some (Layer1.translation_table.getD s 0 - 32) := by
  decide

theorem layer1_lower_layer2_upper (s c : Nat) (h1 : Layer1.translation_table[s]? = some c)
    (hl : 0x61 ≤ c ∧ c ≤ 0x7A) : Layer2.translation_table[s]? = some (c - 32) := by
  have hs : s < 64 := by
    by_contra hge
    rw [List.getElem?_eq_none (by
      have : Layer1.translation_table.length = 64 := rfl
      omega)] at h1
    cases h1
  have hget : Layer1.translation_table.getD s 0 = c := by
    rw [List.getD_eq_getElem?_getD, h1]; rfl
  have := layer1_lower_layer2_upper_table s hs
  rw [hget] at this
  exact this hl.1 hl.2

/-- C19, as stated, fails: Layer1 holds the letter j (0x6A) and Layer2 the
letter J (0x4A) at scan code 53, yet for the extended key with that scan code
(the divide key of the numeric pad) both layers send nothing and answer
`PASS_THROUGH`. -/
theorem letter_key_extended_event_refutes :
    Layer1.translation_table[53]? = some 0x6A
    ∧ Layer2.translation_table[53]? = some 0x4A
    ∧ Layer1.handle_key { sent := [] }
        { vkCode := 0x6F, scanCode := 53, flags := LLKHF_EXTENDED, time := 0, dwExtraInfo := 0 }
        KeyPress.DOWN
      = some (KeyAction.PASS_THROUGH, { sent := [] })
    ∧ Layer2.handle_key { sent := [] }
        { vkCode := 0x6F, scanCode := 53, flags := LLKHF_EXTENDED, time := 0, dwExtraInfo := 0 }
        KeyPress.DOWN
      = some (KeyAction.PASS_THROUGH, { sent := [] }) := by
  refine ⟨rfl, rfl, ?_, ?_⟩ <;> decide

/-- C19, amended: at every scan code where the Layer1 table holds an ASCII
lowercase letter the Layer2 table holds the corresponding uppercase letter,
and for an event at that scan code that does not have the extended flag set
Layer1 and Layer2 send the identical record, the virtual-key record for the
uppercase letter with the direction of the event, and both answer
`SUPPRESS`. -/
theorem letter_key_layers_agree (s c : Nat) (h1 : Layer1.translation_table[s]? = some c)
    (hl : 0x61 ≤ c ∧ c ≤ 0x7A) (inj : KeyPressInjector) (e : KBDLLHOOKSTRUCT) (d : KeyPress)
    (hs : e.scanCode = s) (hext : e.flags &&& LLKHF_EXTENDED = 0) :
    Layer2.translation_table[s]? = some (c - 32)
    ∧ Layer1.handle_key inj e d
        = some (KeyAction.SUPPRESS,
            { sent := inj.sent ++
                [{ type := INPUT_KEYBOARD, wVk := c - 32, wScan := c - 32,
                   dwFlags := if d = KeyPress.UP then KEYEVENTF_KEYUP else 0 }] })
    ∧ Layer2.handle_key inj e d = Layer1.handle_key inj e d := by
  subst hs
  have h2 := layer1_lower_layer2_upper e.scanCode c h1 hl
  obtain ⟨hpos, hlt⟩ :=
    tableLayers_mapped_bounds Layer1 (by simp [tableLayers]) e.scanCode c h1 (by omega)
  have hlt2 : e.scanCode < Layer2.N := hlt
  have hsent : inj.inject_virtual_key (c - 32) d
      = { sent := inj.sent ++
            [{ type := INPUT_KEYBOARD, wVk := c - 32, wScan := c - 32,
               dwFlags := if d = KeyPress.UP then KEYEVENTF_KEYUP else 0 }] } := by
    rw [inject_virtual_key_sent, Nat.mod_eq_of_lt (by omega)]
  have hL1 : Layer1.handle_key inj e d
      = some (KeyAction.SUPPRESS, inj.inject_virtual_key (c - 32) d) := by
    rw [table_handle_key_mapped Layer1 inj e d c hext hpos hlt h1 (by omega),
      inject_key_lower inj c d hl]
  have hL2 : Layer2.handle_key inj e d
      = some (KeyAction.SUPPRESS, inj.inject_virtual_key (c - 32) d) := by
    rw [table_handle_key_mapped Layer2 inj e d (c - 32) hext hpos hlt2 h2 (by omega),
      inject_key_digit_or_upper inj (c - 32) d (Or.inr (by omega))]
  exact ⟨h2, by rw [hL1, hsent], by rw [hL1, hL2]⟩

theorem letter_key_layers_agree_witness :
    Layer1.translation_table[16]? = some 0x78 ∧ (0 : Nat) &&& LLKHF_EXTENDED = 0
    ∧ Layer2.translation_table[16]? = some 0x58
    ∧ Layer2.handle_key { sent := [] }
        { vkCode := 0x51, scanCode := 16, flags := 0, time := 0, dwExtraInfo := 0 } KeyPress.UP
      = Layer1.handle_key { sent := [] }
        { vkCode := 0x51, scanCode := 16, flags := 0, time := 0, dwExtraInfo := 0 }
        KeyPress.UP := by
  obtain ⟨h2, _, hagree⟩ :=
    letter_key_layers_agree 16 0x78 rfl (by decide) { sent := [] }
      { vkCode := 0x51, scanCode := 16, flags := 0, time := 0, dwExtraInfo := 0 } KeyPress.UP
      rfl (by decide)
  exact ⟨rfl, by decide, h2, hagree⟩

end Neo2
